import Mathlib

/-!
Verification of the relayer node's handshake / match-scheduling subsystem.

The development shallowly embeds the Rust sources:
 * `core/src/state/orderbook.rs` (the network order book),
 * `core/src/handshake/manager.rs` (the handshake executor),
 * `core/src/chain_events/listener.rs` (the on-chain event reconciler).

Machine integers (UUIDs, field elements, ports, block numbers) are modelled
as `Nat`; hash maps become either finitely-supported functions or association
lists; hash sets become lists with set-semantics insertion.  Code that panics
(`assert_eq!`) is modelled in the `Except` monad.  Side effects (network
sends, pub-sub publishes, system-bus events, store writes) are recorded as an
ordered trace of primitive actions, so that ordering claims of the
specification can be stated and settled.
-/

namespace Renegade

set_option maxRecDepth 10000

/-- An identifier of an order (`Uuid` in the source), modelled as `Nat`. -/
abbrev OrderIdentifier := Nat

/-- A wallet match nullifier (a field element in the source), modelled as `Nat`. -/
abbrev Nullifier := Nat

/-- The id of a cluster of replicas, modelled as `Nat`. -/
abbrev ClusterId := Nat

/-- A peer id, modelled as `Nat`. -/
abbrev PeerId := Nat

/-- The witness to a proof of `VALID COMMITMENTS`; the executor only ever tests
its presence, so it is modelled as an opaque `Nat`. -/
abbrev SizedValidCommitmentsWitness := Nat

/-- `NetworkOrderState` from `state/orderbook.rs`. -/
inductive NetworkOrderState
  | Received
  | Verified
  | Matched (by_local_node : Bool)
  | Cancelled
  | Pruned
  deriving DecidableEq

/-- A proof bundle of `VALID COMMITMENTS`; the order book reads only
`proof.statement.nullifier`, which is the single field kept here. -/
structure ValidCommitmentsBundle where
  statement_nullifier : Nullifier
  deriving DecidableEq

/-- `NetworkOrder` from `state/orderbook.rs` (field `local` is renamed
`is_local`; `local` is a reserved word). -/
structure NetworkOrder where
  id : OrderIdentifier
  match_nullifier : Nullifier
  is_local : Bool
  cluster : ClusterId
  state : NetworkOrderState
  valid_commit_proof : Option ValidCommitmentsBundle
  valid_commit_witness : Option SizedValidCommitmentsWitness
  deriving DecidableEq

namespace NetworkOrder

/-- `NetworkOrder::new`: a fresh order in the `Received` state. -/
def new (order_id : OrderIdentifier) (match_nullifier : Nullifier)
    (cluster : ClusterId) (is_local : Bool) : NetworkOrder :=
  { id := order_id
    match_nullifier := match_nullifier
    is_local := is_local
    cluster := cluster
    state := .Received
    valid_commit_proof := none
    valid_commit_witness := none }

/-- `NetworkOrder::attach_commitment_proof`. -/
def attach_commitment_proof (o : NetworkOrder) (proof : ValidCommitmentsBundle) :
    NetworkOrder :=
  { o with
    state := .Verified
    match_nullifier := proof.statement_nullifier
    valid_commit_proof := some proof }

/-- `NetworkOrder::transition_received`.  Note: despite its doc comment in the
source ("this drops the existing proof of `VALID COMMITMENTS`"), the code only
rewrites `state` and leaves `valid_commit_proof` in place. -/
def transition_received (o : NetworkOrder) : NetworkOrder :=
  { o with state := .Received }

/-- `NetworkOrder::transition_verified`; the `assert_eq!` on the `Received`
state is modelled as an `Except` error. -/
def transition_verified (o : NetworkOrder) (proof : ValidCommitmentsBundle) :
    Except String NetworkOrder :=
  if o.state = .Received then .ok (o.attach_commitment_proof proof)
  else .error "only orders in Received state may become Verified"

/-- `NetworkOrder::transition_matched`; the `assert_eq!` on the `Verified`
state is modelled as an `Except` error. -/
def transition_matched (o : NetworkOrder) (by_local_node : Bool) :
    Except String NetworkOrder :=
  if o.state = .Verified then .ok { o with state := .Matched by_local_node }
  else .error "order must be in Verified state to transition to Matched"

/-- `NetworkOrder::transition_cancelled` (no state guard in the source). -/
def transition_cancelled (o : NetworkOrder) : NetworkOrder :=
  { o with state := .Cancelled }

/-- `NetworkOrder::transition_pruned` (no state guard in the source). -/
def transition_pruned (o : NetworkOrder) : NetworkOrder :=
  { o with state := .Pruned }

end NetworkOrder

/-- Insertion with hash-set semantics over a list model. -/
def setInsert (l : List Nat) (x : Nat) : List Nat :=
  if x ∈ l then l else x :: l

/-- Removal with hash-set semantics over a list model. -/
def setRemove (l : List Nat) (x : Nat) : List Nat :=
  l.filter (fun y => y ≠ x)

/-- `NetworkOrderBook` from `state/orderbook.rs`.  The two hash maps are
modelled as functions, the two hash sets as lists.  The system-bus handle is
not part of the model; orderbook publishes carry no information the claims
reference and do not feed back into the book state. -/
structure NetworkOrderBook where
  order_map : OrderIdentifier → Option NetworkOrder
  orders_by_nullifier : Nullifier → List OrderIdentifier
  local_orders : List OrderIdentifier
  verified_orders : List OrderIdentifier

namespace NetworkOrderBook

/-- `NetworkOrderBook::new`. -/
def new : NetworkOrderBook :=
  { order_map := fun _ => none
    orders_by_nullifier := fun _ => []
    local_orders := []
    verified_orders := [] }

/-- Point update of the order map (`HashMap::insert`). -/
def mapUpdate (m : OrderIdentifier → Option NetworkOrder) (k : OrderIdentifier)
    (v : NetworkOrder) : OrderIdentifier → Option NetworkOrder :=
  fun k' => if k' = k then some v else m k'

/-- `write_nullifier_order_set(n).insert(id)`: set-insert `id` into the
nullifier index entry for `n`. -/
def nullifierInsert (m : Nullifier → List OrderIdentifier) (n : Nullifier)
    (id : OrderIdentifier) : Nullifier → List OrderIdentifier :=
  fun n' => if n' = n then setInsert (m n) id else m n'

/-- `NetworkOrderBook::contains_order`. -/
def contains_order (b : NetworkOrderBook) (order_id : OrderIdentifier) : Bool :=
  (b.order_map order_id).isSome

/-- `NetworkOrderBook::get_order_info`. -/
def get_order_info (b : NetworkOrderBook) (order_id : OrderIdentifier) :
    Option NetworkOrder :=
  b.order_map order_id

/-- `NetworkOrderBook::has_validity_proof`. -/
def has_validity_proof (b : NetworkOrderBook) (order_id : OrderIdentifier) : Bool :=
  match b.order_map order_id with
  | some o => o.valid_commit_proof.isSome
  | none => false

/-- `NetworkOrderBook::has_validity_witness`. -/
def has_validity_witness (b : NetworkOrderBook) (order_id : OrderIdentifier) : Bool :=
  match b.order_map order_id with
  | some o => o.valid_commit_witness.isSome
  | none => false

/-- `NetworkOrderBook::order_ready_for_handshake`. -/
def order_ready_for_handshake (b : NetworkOrderBook) (order_id : OrderIdentifier) : Bool :=
  b.has_validity_proof order_id && b.has_validity_witness order_id

/-- `NetworkOrderBook::get_verified_orders` (iteration order of the set is the
list order of the model). -/
def get_verified_orders (b : NetworkOrderBook) : List OrderIdentifier :=
  b.verified_orders

/-- `NetworkOrderBook::get_local_scheduleable_orders`: local ∩ verified,
filtered to orders whose witness is held locally. -/
def get_local_scheduleable_orders (b : NetworkOrderBook) : List OrderIdentifier :=
  (b.verified_orders.filter (fun id => id ∈ b.local_orders)).filter
    (fun id => b.has_validity_witness id)

/-- `NetworkOrderBook::add_verified_order`. -/
def add_verified_order (b : NetworkOrderBook) (order_id : OrderIdentifier) :
    NetworkOrderBook :=
  { b with verified_orders := setInsert b.verified_orders order_id }

/-- `NetworkOrderBook::remove_verified_order`. -/
def remove_verified_order (b : NetworkOrderBook) (order_id : OrderIdentifier) :
    NetworkOrderBook :=
  { b with verified_orders := setRemove b.verified_orders order_id }

/-- `NetworkOrderBook::add_order`, in source order: local set, verified set,
nullifier index, order map. -/
def add_order (b : NetworkOrderBook) (o : NetworkOrder) : NetworkOrderBook :=
  let b1 := if o.is_local then { b with local_orders := setInsert b.local_orders o.id } else b
  let b2 := if o.state = .Verified then b1.add_verified_order o.id else b1
  let b3 := { b2 with
    orders_by_nullifier := nullifierInsert b2.orders_by_nullifier o.match_nullifier o.id }
  { b3 with order_map := mapUpdate b3.order_map o.id o }

/-- `NetworkOrderBook::update_order_validity_proof`: index the order id by the
proof's nullifier, attach the proof when the order is present, and add the id
to the verified set unconditionally. -/
def update_order_validity_proof (b : NetworkOrderBook) (order_id : OrderIdentifier)
    (proof : ValidCommitmentsBundle) : NetworkOrderBook :=
  let b1 := { b with
    orders_by_nullifier :=
      nullifierInsert b.orders_by_nullifier proof.statement_nullifier order_id }
  let b2 :=
    match b1.order_map order_id with
    | some o =>
        { b1 with order_map := mapUpdate b1.order_map order_id (o.attach_commitment_proof proof) }
    | none => b1
  b2.add_verified_order order_id

/-- `NetworkOrderBook::attach_validity_proof_witness`. -/
def attach_validity_proof_witness (b : NetworkOrderBook) (order_id : OrderIdentifier)
    (witness : SizedValidCommitmentsWitness) : NetworkOrderBook :=
  match b.order_map order_id with
  | some o =>
      { b with order_map := mapUpdate b.order_map order_id { o with valid_commit_witness := some witness } }
  | none => b

/-- `NetworkOrderBook::transition_order_received`. -/
def transition_order_received (b : NetworkOrderBook) (order_id : OrderIdentifier) :
    NetworkOrderBook :=
  match b.order_map order_id with
  | some o =>
      ({ b with order_map := mapUpdate b.order_map order_id o.transition_received
         }).remove_verified_order order_id
  | none => b

/-- `NetworkOrderBook::transition_verified` (panics — `Except.error` — when the
order is present but not in the `Received` state). -/
def transition_verified (b : NetworkOrderBook) (order_id : OrderIdentifier)
    (proof : ValidCommitmentsBundle) : Except String NetworkOrderBook :=
  match b.order_map order_id with
  | some o => do
      let o' ← o.transition_verified proof
      .ok (({ b with order_map := mapUpdate b.order_map order_id o' }).add_verified_order order_id)
  | none => .ok b

/-- `NetworkOrderBook::transition_matched` (panics — `Except.error` — when the
order is present but not in the `Verified` state). -/
def transition_matched (b : NetworkOrderBook) (order_id : OrderIdentifier)
    (by_local_node : Bool) : Except String NetworkOrderBook :=
  match b.order_map order_id with
  | some o => do
      let o' ← o.transition_matched by_local_node
      .ok (({ b with order_map := mapUpdate b.order_map order_id o' }).remove_verified_order order_id)
  | none => .ok b

/-- `NetworkOrderBook::transition_cancelled` (no state guard). -/
def transition_cancelled (b : NetworkOrderBook) (order_id : OrderIdentifier) :
    NetworkOrderBook :=
  match b.order_map order_id with
  | some o =>
      ({ b with order_map := mapUpdate b.order_map order_id o.transition_cancelled
         }).remove_verified_order order_id
  | none => b

/-- `NetworkOrderBook::transition_pruned` (no state guard). -/
def transition_pruned (b : NetworkOrderBook) (order_id : OrderIdentifier) :
    NetworkOrderBook :=
  match b.order_map order_id with
  | some o =>
      ({ b with order_map := mapUpdate b.order_map order_id o.transition_pruned
         }).remove_verified_order order_id
  | none => b

end NetworkOrderBook

/-- One call into the order book's mutating interface. -/
inductive BookOp
  | add (o : NetworkOrder)
  | updateProof (id : OrderIdentifier) (proof : ValidCommitmentsBundle)
  | attachWitness (id : OrderIdentifier) (w : SizedValidCommitmentsWitness)
  | tReceived (id : OrderIdentifier)
  | tVerified (id : OrderIdentifier) (proof : ValidCommitmentsBundle)
  | tMatched (id : OrderIdentifier) (by_local_node : Bool)
  | tCancelled (id : OrderIdentifier)
  | tPruned (id : OrderIdentifier)
  deriving DecidableEq

/-- Apply one order-book operation; `Except.error` models a panic in the
underlying transition assertion. -/
def applyBookOp (b : NetworkOrderBook) : BookOp → Except String NetworkOrderBook
  | .add o => .ok (b.add_order o)
  | .updateProof id proof => .ok (b.update_order_validity_proof id proof)
  | .attachWitness id w => .ok (b.attach_validity_proof_witness id w)
  | .tReceived id => .ok (b.transition_order_received id)
  | .tVerified id proof => b.transition_verified id proof
  | .tMatched id by_local => b.transition_matched id by_local
  | .tCancelled id => .ok (b.transition_cancelled id)
  | .tPruned id => .ok (b.transition_pruned id)

/-- Apply a sequence of order-book operations, stopping at the first panic. -/
def applyBookOps (b : NetworkOrderBook) : List BookOp → Except String NetworkOrderBook
  | [] => .ok b
  | op :: rest => do
      let b' ← applyBookOp b op
      applyBookOps b' rest

/-- The states in which the specification requires a validity proof to be
attached: `Verified` and `Matched`. -/
def stateRequiresProof : NetworkOrderState → Bool
  | .Verified => true
  | .Matched _ => true
  | _ => false

/-- The forward half of the spec's proof/state invariant on a single order:
a `Verified` or `Matched` order carries a proof. -/
def proofStateInv (o : NetworkOrder) : Prop :=
  stateRequiresProof o.state = true → o.valid_commit_proof.isSome = true

/-- The spec's proof/state invariant as stated (an iff) on a single order. -/
def proofIffStateInv (o : NetworkOrder) : Prop :=
  o.valid_commit_proof.isSome = true ↔ stateRequiresProof o.state = true

/-- Lift an order predicate to every order stored in a book. -/
def bookAllOrders (P : NetworkOrder → Prop) (b : NetworkOrderBook) : Prop :=
  ∀ id o, b.order_map id = some o → P o

/-- Every id in the verified-orders set is a key of the order map. -/
def verifiedSubsetKeys (b : NetworkOrderBook) : Prop :=
  ∀ id, id ∈ b.verified_orders → (b.order_map id).isSome = true

/-- The legal transition DAG as the specification words it:
Received → Verified → Matched; any state → Cancelled; Verified → Pruned. -/
def isLegalOrderTransition : NetworkOrderState → NetworkOrderState → Bool
  | _, .Cancelled => true
  | .Received, .Verified => true
  | .Verified, .Matched _ => true
  | .Verified, .Pruned => true
  | _, _ => false

/-- The state of the order stored under `id`, when present. -/
def bookStateOf (b : NetworkOrderBook) (id : OrderIdentifier) : Option NetworkOrderState :=
  (b.order_map id).map NetworkOrder.state

section BookLemmas

open NetworkOrderBook

theorem mapUpdate_self (m : OrderIdentifier → Option NetworkOrder) (k : OrderIdentifier)
    (v : NetworkOrder) : mapUpdate m k v k = some v := if_pos rfl

theorem mapUpdate_lookup (m : OrderIdentifier → Option NetworkOrder)
    (k k' : OrderIdentifier) (v : NetworkOrder) :
    mapUpdate m k v k' = if k' = k then some v else m k' := rfl

theorem mem_setInsert (l : List Nat) (x y : Nat) :
    x ∈ setInsert l y ↔ x = y ∨ x ∈ l := by
  unfold setInsert
  split
  · constructor
    · exact fun h => Or.inr h
    · rintro (rfl | h) <;> assumption
  · simp [List.mem_cons]

theorem mem_setRemove (l : List Nat) (x y : Nat) :
    x ∈ setRemove l y ↔ x ∈ l ∧ x ≠ y := by
  unfold setRemove
  simp [List.mem_filter]

theorem add_order_order_map (b : NetworkOrderBook) (o : NetworkOrder) :
    (b.add_order o).order_map = mapUpdate b.order_map o.id o := by
  unfold NetworkOrderBook.add_order NetworkOrderBook.add_verified_order
  split <;> split <;> rfl

theorem add_order_lookup (b : NetworkOrderBook) (o : NetworkOrder) (id : OrderIdentifier) :
    (b.add_order o).order_map id = if id = o.id then some o else b.order_map id := by
  rw [add_order_order_map]; rfl

theorem update_proof_lookup (b : NetworkOrderBook) (id : OrderIdentifier)
    (proof : ValidCommitmentsBundle) (id' : OrderIdentifier) :
    (b.update_order_validity_proof id proof).order_map id' =
      if id' = id then (b.order_map id).map (fun o => o.attach_commitment_proof proof)
      else b.order_map id' := by
  unfold NetworkOrderBook.update_order_validity_proof NetworkOrderBook.add_verified_order
  dsimp only
  cases hmap : b.order_map id with
  | some o =>
      simp only [hmap, mapUpdate_lookup]
      rfl
  | none =>
      simp only [hmap]
      split
      · rename_i heq; rw [heq, hmap]; rfl
      · rfl

theorem attach_witness_lookup (b : NetworkOrderBook) (id : OrderIdentifier)
    (w : SizedValidCommitmentsWitness) (id' : OrderIdentifier) :
    (b.attach_validity_proof_witness id w).order_map id' =
      if id' = id then (b.order_map id).map (fun o => { o with valid_commit_witness := some w })
      else b.order_map id' := by
  unfold NetworkOrderBook.attach_validity_proof_witness
  cases hmap : b.order_map id with
  | some o =>
      simp only [hmap, mapUpdate_lookup]
      rfl
  | none =>
      simp only [hmap]
      split
      · rename_i heq; rw [heq, hmap]; rfl
      · rfl

theorem transition_received_lookup (b : NetworkOrderBook) (id id' : OrderIdentifier) :
    (b.transition_order_received id).order_map id' =
      if id' = id then (b.order_map id).map NetworkOrder.transition_received
      else b.order_map id' := by
  unfold NetworkOrderBook.transition_order_received NetworkOrderBook.remove_verified_order
  cases hmap : b.order_map id with
  | some o =>
      simp only [hmap, mapUpdate_lookup]
      rfl
  | none =>
      simp only [hmap]
      split
      · rename_i heq; rw [heq, hmap]; rfl
      · rfl

theorem transition_cancelled_lookup (b : NetworkOrderBook) (id id' : OrderIdentifier) :
    (b.transition_cancelled id).order_map id' =
      if id' = id then (b.order_map id).map NetworkOrder.transition_cancelled
      else b.order_map id' := by
  unfold NetworkOrderBook.transition_cancelled NetworkOrderBook.remove_verified_order
  cases hmap : b.order_map id with
  | some o =>
      simp only [hmap, mapUpdate_lookup]
      rfl
  | none =>
      simp only [hmap]
      split
      · rename_i heq; rw [heq, hmap]; rfl
      · rfl

theorem transition_pruned_lookup (b : NetworkOrderBook) (id id' : OrderIdentifier) :
    (b.transition_pruned id).order_map id' =
      if id' = id then (b.order_map id).map NetworkOrder.transition_pruned
      else b.order_map id' := by
  unfold NetworkOrderBook.transition_pruned NetworkOrderBook.remove_verified_order
  cases hmap : b.order_map id with
  | some o =>
      simp only [hmap, mapUpdate_lookup]
      rfl
  | none =>
      simp only [hmap]
      split
      · rename_i heq; rw [heq, hmap]; rfl
      · rfl

theorem add_order_verified (b : NetworkOrderBook) (o : NetworkOrder) :
    (b.add_order o).verified_orders =
      if o.state = .Verified then setInsert b.verified_orders o.id
      else b.verified_orders := by
  unfold NetworkOrderBook.add_order NetworkOrderBook.add_verified_order
  split <;> split <;> simp_all

theorem update_proof_order_map (b : NetworkOrderBook) (id : OrderIdentifier)
    (proof : ValidCommitmentsBundle) :
    (b.update_order_validity_proof id proof).order_map =
      match b.order_map id with
      | some o => mapUpdate b.order_map id (o.attach_commitment_proof proof)
      | none => b.order_map := by
  unfold NetworkOrderBook.update_order_validity_proof NetworkOrderBook.add_verified_order
  split <;> rename_i h <;> simp only [h]

theorem update_proof_verified (b : NetworkOrderBook) (id : OrderIdentifier)
    (proof : ValidCommitmentsBundle) :
    (b.update_order_validity_proof id proof).verified_orders =
      setInsert b.verified_orders id := by
  unfold NetworkOrderBook.update_order_validity_proof NetworkOrderBook.add_verified_order
  dsimp only
  split <;> rfl

theorem attach_witness_order_map (b : NetworkOrderBook) (id : OrderIdentifier)
    (w : SizedValidCommitmentsWitness) :
    (b.attach_validity_proof_witness id w).order_map =
      match b.order_map id with
      | some o => mapUpdate b.order_map id { o with valid_commit_witness := some w }
      | none => b.order_map := by
  unfold NetworkOrderBook.attach_validity_proof_witness
  split <;> rename_i h <;> simp only [h]

theorem attach_witness_verified (b : NetworkOrderBook) (id : OrderIdentifier)
    (w : SizedValidCommitmentsWitness) :
    (b.attach_validity_proof_witness id w).verified_orders = b.verified_orders := by
  unfold NetworkOrderBook.attach_validity_proof_witness
  split <;> rfl

theorem transition_received_eq (b : NetworkOrderBook) (id : OrderIdentifier) :
    b.transition_order_received id =
      match b.order_map id with
      | some o =>
          ({ b with order_map := mapUpdate b.order_map id o.transition_received
             }).remove_verified_order id
      | none => b := rfl

theorem transition_cancelled_eq (b : NetworkOrderBook) (id : OrderIdentifier) :
    b.transition_cancelled id =
      match b.order_map id with
      | some o =>
          ({ b with order_map := mapUpdate b.order_map id o.transition_cancelled
             }).remove_verified_order id
      | none => b := rfl

theorem transition_pruned_eq (b : NetworkOrderBook) (id : OrderIdentifier) :
    b.transition_pruned id =
      match b.order_map id with
      | some o =>
          ({ b with order_map := mapUpdate b.order_map id o.transition_pruned
             }).remove_verified_order id
      | none => b := rfl

theorem transition_verified_eq (b : NetworkOrderBook) (id : OrderIdentifier)
    (proof : ValidCommitmentsBundle) :
    b.transition_verified id proof =
      match b.order_map id with
      | some o =>
          if o.state = .Received then
            .ok (({ b with
              order_map := mapUpdate b.order_map id (o.attach_commitment_proof proof)
              }).add_verified_order id)
          else .error "only orders in Received state may become Verified"
      | none => .ok b := by
  unfold NetworkOrderBook.transition_verified NetworkOrder.transition_verified
  split
  · split <;> rfl
  · rfl

theorem transition_matched_eq (b : NetworkOrderBook) (id : OrderIdentifier)
    (by_local_node : Bool) :
    b.transition_matched id by_local_node =
      match b.order_map id with
      | some o =>
          if o.state = .Verified then
            .ok (({ b with
              order_map := mapUpdate b.order_map id { o with state := .Matched by_local_node }
              }).remove_verified_order id)
          else .error "order must be in Verified state to transition to Matched"
      | none => .ok b := by
  unfold NetworkOrderBook.transition_matched NetworkOrder.transition_matched
  split
  · split <;> rfl
  · rfl

theorem transition_verified_of_received (b : NetworkOrderBook) (id : OrderIdentifier)
    (proof : ValidCommitmentsBundle) (o : NetworkOrder)
    (hmap : b.order_map id = some o) (hstate : o.state = .Received) :
    b.transition_verified id proof =
      .ok (({ b with
        order_map := mapUpdate b.order_map id (o.attach_commitment_proof proof)
        }).add_verified_order id) := by
  unfold NetworkOrderBook.transition_verified
  rw [hmap]
  dsimp only
  unfold NetworkOrder.transition_verified
  rw [if_pos hstate]
  rfl

theorem transition_verified_of_not_received (b : NetworkOrderBook) (id : OrderIdentifier)
    (proof : ValidCommitmentsBundle) (o : NetworkOrder)
    (hmap : b.order_map id = some o) (hstate : o.state ≠ .Received) :
    b.transition_verified id proof =
      .error "only orders in Received state may become Verified" := by
  unfold NetworkOrderBook.transition_verified
  rw [hmap]
  dsimp only
  unfold NetworkOrder.transition_verified
  rw [if_neg hstate]
  rfl

theorem transition_verified_of_absent (b : NetworkOrderBook) (id : OrderIdentifier)
    (proof : ValidCommitmentsBundle) (hmap : b.order_map id = none) :
    b.transition_verified id proof = .ok b := by
  unfold NetworkOrderBook.transition_verified
  rw [hmap]

theorem transition_matched_of_verified (b : NetworkOrderBook) (id : OrderIdentifier)
    (bl : Bool) (o : NetworkOrder)
    (hmap : b.order_map id = some o) (hstate : o.state = .Verified) :
    b.transition_matched id bl =
      .ok (({ b with
        order_map := mapUpdate b.order_map id { o with state := .Matched bl }
        }).remove_verified_order id) := by
  unfold NetworkOrderBook.transition_matched
  rw [hmap]
  dsimp only
  unfold NetworkOrder.transition_matched
  rw [if_pos hstate]
  rfl

theorem transition_matched_of_not_verified (b : NetworkOrderBook) (id : OrderIdentifier)
    (bl : Bool) (o : NetworkOrder)
    (hmap : b.order_map id = some o) (hstate : o.state ≠ .Verified) :
    b.transition_matched id bl =
      .error "order must be in Verified state to transition to Matched" := by
  unfold NetworkOrderBook.transition_matched
  rw [hmap]
  dsimp only
  unfold NetworkOrder.transition_matched
  rw [if_neg hstate]
  rfl

theorem transition_matched_of_absent (b : NetworkOrderBook) (id : OrderIdentifier)
    (bl : Bool) (hmap : b.order_map id = none) :
    b.transition_matched id bl = .ok b := by
  unfold NetworkOrderBook.transition_matched
  rw [hmap]

/-- One order-book operation preserves the forward proof/state invariant,
provided any order handed to `add_order` satisfies it. -/
theorem applyBookOp_proofInv {b b' : NetworkOrderBook} {op : BookOp}
    (hb : bookAllOrders proofStateInv b)
    (hadd : ∀ o, op = .add o → proofStateInv o)
    (h : applyBookOp b op = .ok b') :
    bookAllOrders proofStateInv b' := by
  intro id o hlook
  cases op with
  | add o0 =>
      cases h
      rw [add_order_lookup] at hlook
      split at hlook
      · cases hlook; exact hadd _ rfl
      · exact hb _ _ hlook
  | updateProof id0 p =>
      cases h
      rw [update_proof_lookup] at hlook
      split at hlook
      · cases hmap : b.order_map id0 with
        | some o0 =>
            rw [hmap] at hlook
            cases hlook
            intro _
            simp [NetworkOrder.attach_commitment_proof]
        | none => rw [hmap] at hlook; cases hlook
      · exact hb _ _ hlook
  | attachWitness id0 w =>
      cases h
      rw [attach_witness_lookup] at hlook
      split at hlook
      · cases hmap : b.order_map id0 with
        | some o0 =>
            rw [hmap] at hlook
            cases hlook
            have := hb _ _ hmap
            intro hreq
            exact this hreq
        | none => rw [hmap] at hlook; cases hlook
      · exact hb _ _ hlook
  | tReceived id0 =>
      cases h
      rw [transition_received_lookup] at hlook
      split at hlook
      · cases hmap : b.order_map id0 with
        | some o0 =>
            rw [hmap] at hlook
            cases hlook
            intro hreq
            simp [NetworkOrder.transition_received, stateRequiresProof] at hreq
        | none => rw [hmap] at hlook; cases hlook
      · exact hb _ _ hlook
  | tVerified id0 p =>
      replace h : b.transition_verified id0 p = .ok b' := h
      cases hmap : b.order_map id0 with
      | some o0 =>
          by_cases hstate : o0.state = .Received
          · rw [transition_verified_of_received b id0 p o0 hmap hstate] at h
            cases h
            simp only [NetworkOrderBook.add_verified_order] at hlook
            rw [mapUpdate_lookup] at hlook
            split at hlook
            · cases hlook
              intro _
              simp [NetworkOrder.attach_commitment_proof]
            · exact hb _ _ hlook
          · rw [transition_verified_of_not_received b id0 p o0 hmap hstate] at h
            cases h
      | none =>
          rw [transition_verified_of_absent b id0 p hmap] at h
          cases h
          exact hb _ _ hlook
  | tMatched id0 bl =>
      replace h : b.transition_matched id0 bl = .ok b' := h
      cases hmap : b.order_map id0 with
      | some o0 =>
          by_cases hstate : o0.state = .Verified
          · rw [transition_matched_of_verified b id0 bl o0 hmap hstate] at h
            cases h
            simp only [NetworkOrderBook.remove_verified_order] at hlook
            rw [mapUpdate_lookup] at hlook
            split at hlook
            · cases hlook
              intro _
              have := hb _ _ hmap
              apply this
              rw [hstate]
              rfl
            · exact hb _ _ hlook
          · rw [transition_matched_of_not_verified b id0 bl o0 hmap hstate] at h
            cases h
      | none =>
          rw [transition_matched_of_absent b id0 bl hmap] at h
          cases h
          exact hb _ _ hlook
  | tCancelled id0 =>
      cases h
      rw [transition_cancelled_lookup] at hlook
      split at hlook
      · cases hmap : b.order_map id0 with
        | some o0 =>
            rw [hmap] at hlook
            cases hlook
            intro hreq
            simp [NetworkOrder.transition_cancelled, stateRequiresProof] at hreq
        | none => rw [hmap] at hlook; cases hlook
      · exact hb _ _ hlook
  | tPruned id0 =>
      cases h
      rw [transition_pruned_lookup] at hlook
      split at hlook
      · cases hmap : b.order_map id0 with
        | some o0 =>
            rw [hmap] at hlook
            cases hlook
            intro hreq
            simp [NetworkOrder.transition_pruned, stateRequiresProof] at hreq
        | none => rw [hmap] at hlook; cases hlook
      · exact hb _ _ hlook

theorem applyBookOps_cons (b : NetworkOrderBook) (op : BookOp) (rest : List BookOp)
    (b' : NetworkOrderBook) :
    applyBookOps b (op :: rest) = .ok b' ↔
      ∃ bmid, applyBookOp b op = .ok bmid ∧ applyBookOps bmid rest = .ok b' := by
  constructor
  · intro h
    cases hmid : applyBookOp b op with
    | ok bmid =>
        refine ⟨bmid, rfl, ?_⟩
        simpa only [applyBookOps, hmid, bind, Except.bind] using h
    | error e =>
        rw [show applyBookOps b (op :: rest) = Except.error e by
          simp only [applyBookOps, hmid, bind, Except.bind]] at h
        cases h
  · rintro ⟨bmid, h1, h2⟩
    simp only [applyBookOps, h1, bind, Except.bind, h2]

theorem update_proof_nullifier (b : NetworkOrderBook) (id : OrderIdentifier)
    (proof : ValidCommitmentsBundle) :
    (b.update_order_validity_proof id proof).orders_by_nullifier =
      nullifierInsert b.orders_by_nullifier proof.statement_nullifier id := by
  unfold NetworkOrderBook.update_order_validity_proof NetworkOrderBook.add_verified_order
  dsimp only
  split <;> rfl

/-- No order-book operation ever removes a key from the order map. -/
theorem applyBookOp_keys_mono {b b' : NetworkOrderBook} {op : BookOp}
    (h : applyBookOp b op = .ok b') (id : OrderIdentifier)
    (hk : (b.order_map id).isSome = true) : (b'.order_map id).isSome = true := by
  cases op with
  | add o0 =>
      cases h
      rw [add_order_lookup]
      split
      · rfl
      · exact hk
  | updateProof id0 p =>
      cases h
      rw [update_proof_lookup]
      split
      · rename_i heq
        subst heq
        cases hm : b.order_map id with
        | some o0 => rfl
        | none => rw [hm] at hk; cases hk
      · exact hk
  | attachWitness id0 w =>
      cases h
      rw [attach_witness_lookup]
      split
      · rename_i heq
        subst heq
        cases hm : b.order_map id with
        | some o0 => rfl
        | none => rw [hm] at hk; cases hk
      · exact hk
  | tReceived id0 =>
      cases h
      rw [transition_received_lookup]
      split
      · rename_i heq
        subst heq
        cases hm : b.order_map id with
        | some o0 => rfl
        | none => rw [hm] at hk; cases hk
      · exact hk
  | tVerified id0 p =>
      replace h : b.transition_verified id0 p = .ok b' := h
      cases hmap : b.order_map id0 with
      | some o0 =>
          by_cases hstate : o0.state = .Received
          · rw [transition_verified_of_received b id0 p o0 hmap hstate] at h
            cases h
            simp only [NetworkOrderBook.add_verified_order]
            rw [mapUpdate_lookup]
            split
            · rfl
            · exact hk
          · rw [transition_verified_of_not_received b id0 p o0 hmap hstate] at h
            cases h
      | none =>
          rw [transition_verified_of_absent b id0 p hmap] at h
          cases h
          exact hk
  | tMatched id0 bl =>
      replace h : b.transition_matched id0 bl = .ok b' := h
      cases hmap : b.order_map id0 with
      | some o0 =>
          by_cases hstate : o0.state = .Verified
          · rw [transition_matched_of_verified b id0 bl o0 hmap hstate] at h
            cases h
            simp only [NetworkOrderBook.remove_verified_order]
            rw [mapUpdate_lookup]
            split
            · rfl
            · exact hk
          · rw [transition_matched_of_not_verified b id0 bl o0 hmap hstate] at h
            cases h
      | none =>
          rw [transition_matched_of_absent b id0 bl hmap] at h
          cases h
          exact hk
  | tCancelled id0 =>
      cases h
      rw [transition_cancelled_lookup]
      split
      · rename_i heq
        subst heq
        cases hm : b.order_map id with
        | some o0 => rfl
        | none => rw [hm] at hk; cases hk
      · exact hk
  | tPruned id0 =>
      cases h
      rw [transition_pruned_lookup]
      split
      · rename_i heq
        subst heq
        cases hm : b.order_map id with
        | some o0 => rfl
        | none => rw [hm] at hk; cases hk
      · exact hk

theorem transition_received_verified (b : NetworkOrderBook) (id : OrderIdentifier) :
    ∀ x, x ∈ (b.transition_order_received id).verified_orders → x ∈ b.verified_orders := by
  intro x hx
  rw [transition_received_eq] at hx
  cases hmap : b.order_map id with
  | some o =>
      rw [hmap] at hx
      exact ((mem_setRemove _ _ _).mp hx).1
  | none =>
      rw [hmap] at hx
      exact hx

theorem transition_cancelled_verified (b : NetworkOrderBook) (id : OrderIdentifier) :
    ∀ x, x ∈ (b.transition_cancelled id).verified_orders → x ∈ b.verified_orders := by
  intro x hx
  rw [transition_cancelled_eq] at hx
  cases hmap : b.order_map id with
  | some o =>
      rw [hmap] at hx
      exact ((mem_setRemove _ _ _).mp hx).1
  | none =>
      rw [hmap] at hx
      exact hx

theorem transition_pruned_verified (b : NetworkOrderBook) (id : OrderIdentifier) :
    ∀ x, x ∈ (b.transition_pruned id).verified_orders → x ∈ b.verified_orders := by
  intro x hx
  rw [transition_pruned_eq] at hx
  cases hmap : b.order_map id with
  | some o =>
      rw [hmap] at hx
      exact ((mem_setRemove _ _ _).mp hx).1
  | none =>
      rw [hmap] at hx
      exact hx

/-- One order-book operation keeps the verified set inside the key set,
provided `update_order_validity_proof` is only invoked on present orders. -/
theorem applyBookOp_verifiedSubsetKeys {b b' : NetworkOrderBook} {op : BookOp}
    (hb : verifiedSubsetKeys b)
    (h : applyBookOp b op = .ok b')
    (hupd : ∀ id p, op = BookOp.updateProof id p → (b.order_map id).isSome = true) :
    verifiedSubsetKeys b' := by
  intro id hmem
  cases op with
  | add o0 =>
      have h' := h
      cases h'
      rw [add_order_verified] at hmem
      rw [add_order_lookup]
      split at hmem
      · rcases (mem_setInsert _ _ _).mp hmem with heq | hmem'
        · rw [if_pos heq]
          rfl
        · split
          · rfl
          · exact hb _ hmem'
      · split
        · rfl
        · exact hb _ hmem
  | updateProof id0 p =>
      have h' := h
      cases h'
      rw [update_proof_verified] at hmem
      rw [update_proof_lookup]
      rcases (mem_setInsert _ _ _).mp hmem with heq | hmem'
      · rw [if_pos heq]
        have := hupd id0 p rfl
        cases hm : b.order_map id0 with
        | some o0 => rfl
        | none => rw [hm] at this; cases this
      · split
        · rename_i heq
          subst heq
          have := hb _ hmem'
          cases hm : b.order_map id with
          | some o0 => rfl
          | none => rw [hm] at this; cases this
        · exact hb _ hmem'
  | attachWitness id0 w =>
      have h' := h
      cases h'
      rw [attach_witness_verified] at hmem
      rw [attach_witness_lookup]
      split
      · rename_i heq
        subst heq
        have := hb _ hmem
        cases hm : b.order_map id with
        | some o0 => rfl
        | none => rw [hm] at this; cases this
      · exact hb _ hmem
  | tReceived id0 =>
      have h' := h
      cases h'
      have hmem' := transition_received_verified b id0 id hmem
      exact @applyBookOp_keys_mono b (b.transition_order_received id0) (.tReceived id0) rfl id (hb _ hmem')
  | tVerified id0 p =>
      replace h : b.transition_verified id0 p = .ok b' := h
      cases hmap : b.order_map id0 with
      | some o0 =>
          by_cases hstate : o0.state = .Received
          · rw [transition_verified_of_received b id0 p o0 hmap hstate] at h
            cases h
            simp only [NetworkOrderBook.add_verified_order] at hmem ⊢
            rw [mapUpdate_lookup]
            rcases (mem_setInsert _ _ _).mp hmem with heq | hmem'
            · rw [if_pos heq]
              rfl
            · split
              · rfl
              · exact hb _ hmem'
          · rw [transition_verified_of_not_received b id0 p o0 hmap hstate] at h
            cases h
      | none =>
          rw [transition_verified_of_absent b id0 p hmap] at h
          cases h
          exact hb _ hmem
  | tMatched id0 bl =>
      replace h : b.transition_matched id0 bl = .ok b' := h
      cases hmap : b.order_map id0 with
      | some o0 =>
          by_cases hstate : o0.state = .Verified
          · rw [transition_matched_of_verified b id0 bl o0 hmap hstate] at h
            cases h
            simp only [NetworkOrderBook.remove_verified_order] at hmem ⊢
            rw [mapUpdate_lookup]
            have hmem' := ((mem_setRemove _ _ _).mp hmem).1
            split
            · rfl
            · exact hb _ hmem'
          · rw [transition_matched_of_not_verified b id0 bl o0 hmap hstate] at h
            cases h
      | none =>
          rw [transition_matched_of_absent b id0 bl hmap] at h
          cases h
          exact hb _ hmem
  | tCancelled id0 =>
      have h' := h
      cases h'
      have hmem' := transition_cancelled_verified b id0 id hmem
      exact @applyBookOp_keys_mono b (b.transition_cancelled id0) (.tCancelled id0) rfl id (hb _ hmem')
  | tPruned id0 =>
      have h' := h
      cases h'
      have hmem' := transition_pruned_verified b id0 id hmem
      exact @applyBookOp_keys_mono b (b.transition_pruned id0) (.tPruned id0) rfl id (hb _ hmem')

/-- The forward proof/state invariant carries over whole operation sequences. -/
theorem applyBookOps_proofInv :
    ∀ (ops : List BookOp) (b b' : NetworkOrderBook),
      bookAllOrders proofStateInv b →
      (∀ o, BookOp.add o ∈ ops → proofStateInv o) →
      applyBookOps b ops = .ok b' →
      bookAllOrders proofStateInv b'
  | [], b, b', hb, _, h => by cases h; exact hb
  | op :: rest, b, b', hb, hadd, h => by
      obtain ⟨bmid, h1, h2⟩ := (applyBookOps_cons b op rest b').mp h
      exact applyBookOps_proofInv rest bmid b'
        (applyBookOp_proofInv hb (fun o ho => hadd o (ho ▸ List.mem_cons_self _ _)) h1)
        (fun o ho => hadd o (List.mem_cons_of_mem _ ho)) h2

theorem scheduleable_subset_verified (b : NetworkOrderBook) :
    ∀ id, id ∈ b.get_local_scheduleable_orders → id ∈ b.verified_orders := by
  intro id h
  unfold NetworkOrderBook.get_local_scheduleable_orders at h
  exact (List.mem_filter.mp (List.mem_filter.mp h).1).1

end BookLemmas

/-- Order-book states reachable from the empty book through the book's public
operations, where `update_order_validity_proof` is only ever invoked on an id
present in the book. -/
inductive GoodBookReach : NetworkOrderBook → Prop
  | init : GoodBookReach NetworkOrderBook.new
  | step {b b' : NetworkOrderBook} (op : BookOp) :
      GoodBookReach b → applyBookOp b op = .ok b' →
      (∀ id p, op = BookOp.updateProof id p → (b.order_map id).isSome = true) →
      GoodBookReach b'

section BookClaims

open NetworkOrderBook

/-- The operation sequence of the C3 counterexample: add a fresh local order,
verify it by attaching a proof, then cancel it. -/
def c3Ops : List BookOp :=
  [.add (NetworkOrder.new 1 5 0 true), .updateProof 1 ⟨7⟩, .tCancelled 1]

/-- The book resulting from `c3Ops`. -/
def c3Book : NetworkOrderBook :=
  ((NetworkOrderBook.new.add_order (NetworkOrder.new 1 5 0 true)
    ).update_order_validity_proof 1 ⟨7⟩).transition_cancelled 1

/-- C3 counterexample: after add → attach proof → cancel, the cancelled order
still carries `valid_commit_proof = Some` while its state is `Cancelled`, so
the claimed equivalence `valid_commit_proof = Some ⇔ state ∈ {Verified,
Matched}` fails on a state produced by the book's own operations. -/
theorem c3_counterexample :
    applyBookOps NetworkOrderBook.new c3Ops = .ok c3Book ∧
    (c3Book.order_map 1).map NetworkOrder.state = some .Cancelled ∧
    ((c3Book.order_map 1).map fun o => o.valid_commit_proof.isSome) = some true ∧
    ¬ bookAllOrders proofIffStateInv c3Book := by
  refine ⟨rfl, by decide, by decide, ?_⟩
  intro h
  have h1 := h 1
    { id := 1, match_nullifier := 7, is_local := true, cluster := 0,
      state := .Cancelled, valid_commit_proof := some ⟨7⟩,
      valid_commit_witness := none } (by decide)
  simp [proofIffStateInv, stateRequiresProof] at h1

/-- C3: (corrected) in every book reachable by the order-book operations
starting from the empty book — with any order handed to `add_order`
satisfying the forward invariant — every stored order in `Verified` or
`Matched` state carries a validity proof.  The converse direction of the
spec's iff fails (see the counterexample): `transition_received`,
`transition_cancelled` and `transition_pruned` never clear
`valid_commit_proof`. -/
theorem orderBookProofPresenceInvariant :
    ∀ (ops : List BookOp) (b' : NetworkOrderBook),
      (∀ o, BookOp.add o ∈ ops → proofStateInv o) →
      applyBookOps NetworkOrderBook.new ops = .ok b' →
      bookAllOrders proofStateInv b' := by
  intro ops b' hadd h
  refine applyBookOps_proofInv ops NetworkOrderBook.new b' ?_ hadd h
  intro id o hlook
  simp [NetworkOrderBook.new] at hlook

/-- C3 witness: the invariant theorem applied to the concrete run `c3Ops`. -/
theorem orderBookProofPresenceInvariant_witness :
    bookAllOrders proofStateInv c3Book := by
  refine orderBookProofPresenceInvariant c3Ops c3Book ?_ rfl
  intro o ho
  simp only [c3Ops, List.mem_cons, List.not_mem_nil, or_false] at ho
  rcases ho with ho | ho | ho
  · cases ho
    intro h
    simp [NetworkOrder.new, stateRequiresProof] at h
  · cases ho
  · cases ho

/-- The book of the C4/C5 counterexamples: a single freshly added order in the
`Received` state. -/
def c4Book : NetworkOrderBook :=
  NetworkOrderBook.new.add_order (NetworkOrder.new 1 5 0 true)

/-- C4 counterexample: `transition_pruned` on an order in the `Received` state
succeeds and moves it to `Pruned`, although `Received → Pruned` is not an edge
of the spec's DAG — the illegal transition is applied, not rejected. -/
theorem c4_counterexample :
    (bookStateOf c4Book 1 = some .Received) ∧
    (bookStateOf (c4Book.transition_pruned 1) 1 = some .Pruned) ∧
    isLegalOrderTransition .Received .Pruned = false := by
  decide

/-- C4: (corrected) the transitions actually enforced by the order book:
`transition_verified` requires `Received` and `transition_matched` requires
`Verified` (panicking — `Except.error` — otherwise, which leaves no successor
book), while `transition_order_received`, `transition_cancelled` and
`transition_pruned` rewrite the state unconditionally from any state; hence
besides the spec's DAG edges, any state → `Received` and any state → `Pruned`
are also applied rather than rejected. -/
theorem orderBookTransitionEdges :
    ∀ (b : NetworkOrderBook) (id : OrderIdentifier) (proof : ValidCommitmentsBundle)
      (bl : Bool) (o : NetworkOrder), b.order_map id = some o →
      (bookStateOf (b.transition_order_received id) id = some .Received) ∧
      (bookStateOf (b.transition_cancelled id) id = some .Cancelled) ∧
      (bookStateOf (b.transition_pruned id) id = some .Pruned) ∧
      (o.state = .Received →
        b.transition_verified id proof =
          .ok (({ b with
            order_map := mapUpdate b.order_map id (o.attach_commitment_proof proof)
            }).add_verified_order id)) ∧
      (o.state ≠ .Received →
        b.transition_verified id proof =
          .error "only orders in Received state may become Verified") ∧
      (o.state = .Verified →
        b.transition_matched id bl =
          .ok (({ b with
            order_map := mapUpdate b.order_map id { o with state := .Matched bl }
            }).remove_verified_order id)) ∧
      (o.state ≠ .Verified →
        b.transition_matched id bl =
          .error "order must be in Verified state to transition to Matched") := by
  intro b id proof bl o hmap
  refine ⟨?_, ?_, ?_, ?_, ?_, ?_, ?_⟩
  · unfold bookStateOf
    rw [transition_received_lookup, if_pos rfl, hmap]
    rfl
  · unfold bookStateOf
    rw [transition_cancelled_lookup, if_pos rfl, hmap]
    rfl
  · unfold bookStateOf
    rw [transition_pruned_lookup, if_pos rfl, hmap]
    rfl
  · exact fun hs => transition_verified_of_received b id proof o hmap hs
  · exact fun hs => transition_verified_of_not_received b id proof o hmap hs
  · exact fun hs => transition_matched_of_verified b id bl o hmap hs
  · exact fun hs => transition_matched_of_not_verified b id bl o hmap hs

/-- C4 witness: the edge characterization applied to the concrete `c4Book`. -/
theorem orderBookTransitionEdges_witness :
    (bookStateOf (c4Book.transition_order_received 1) 1 = some .Received) ∧
    (bookStateOf (c4Book.transition_cancelled 1) 1 = some .Cancelled) ∧
    (bookStateOf (c4Book.transition_pruned 1) 1 = some .Pruned) := by
  have h := orderBookTransitionEdges c4Book 1 ⟨7⟩ true (NetworkOrder.new 1 5 0 true)
    (by decide)
  exact ⟨h.1, h.2.1, h.2.2.1⟩

/-- The book of the C5 counterexample: a single order that has been cancelled. -/
def c5Book : NetworkOrderBook := c4Book.transition_cancelled 1

/-- C5 counterexample: `update_order_validity_proof` applies to an order in the
`Cancelled` state — not only `Received` — and moves it to `Verified`. -/
theorem c5_counterexample :
    (bookStateOf c5Book 1 = some .Cancelled) ∧
    (bookStateOf (c5Book.update_order_validity_proof 1 ⟨7⟩) 1 = some .Verified) := by
  decide

/-- C5: (corrected) `update_order_validity_proof` has no `Received`
precondition: for any present order — in any state — it sets the state to
`Verified`, sets `match_nullifier` to the proof statement's nullifier and
attaches the proof; independently of presence, it inserts the id into
`orders_by_nullifier` under that nullifier and into the verified set, and
leaves every other order untouched. -/
theorem updateValidityProofCharacterization :
    ∀ (b : NetworkOrderBook) (id : OrderIdentifier) (proof : ValidCommitmentsBundle),
      ((b.update_order_validity_proof id proof).order_map id =
        (b.order_map id).map (fun o => o.attach_commitment_proof proof)) ∧
      (∀ o, b.order_map id = some o →
        (b.update_order_validity_proof id proof).order_map id =
          some { o with
            state := .Verified,
            match_nullifier := proof.statement_nullifier,
            valid_commit_proof := some proof }) ∧
      (id ∈ (b.update_order_validity_proof id proof).orders_by_nullifier
        proof.statement_nullifier) ∧
      (id ∈ (b.update_order_validity_proof id proof).verified_orders) ∧
      (∀ id', id' ≠ id →
        (b.update_order_validity_proof id proof).order_map id' = b.order_map id') := by
  intro b id proof
  refine ⟨?_, ?_, ?_, ?_, ?_⟩
  · rw [update_proof_lookup, if_pos rfl]
  · intro o hmap
    rw [update_proof_lookup, if_pos rfl, hmap]
    rfl
  · rw [update_proof_nullifier]
    unfold nullifierInsert
    rw [if_pos rfl]
    exact (mem_setInsert _ _ _).mpr (Or.inl rfl)
  · rw [update_proof_verified]
    exact (mem_setInsert _ _ _).mpr (Or.inl rfl)
  · intro id' hne
    rw [update_proof_lookup, if_neg hne]

/-- C5 witness: the characterization applied to the cancelled order of
`c5Book`. -/
theorem updateValidityProofCharacterization_witness :
    (c5Book.update_order_validity_proof 1 ⟨7⟩).order_map 1 =
      some { id := 1, match_nullifier := 7, is_local := true, cluster := 0,
             state := .Verified, valid_commit_proof := some ⟨7⟩,
             valid_commit_witness := none } ∧
    (c5Book.update_order_validity_proof 1 ⟨7⟩).order_map 2 = c5Book.order_map 2 := by
  have h := updateValidityProofCharacterization c5Book 1 ⟨7⟩
  exact ⟨h.2.1
    { id := 1, match_nullifier := 5, is_local := true, cluster := 0,
      state := .Cancelled, valid_commit_proof := none, valid_commit_witness := none }
    (by decide), h.2.2.2.2 2 (by decide)⟩

/-- The book of the C10 counterexample: `update_order_validity_proof` invoked
on an empty book. -/
def c10Book : NetworkOrderBook := NetworkOrderBook.new.update_order_validity_proof 1 ⟨7⟩

/-- C10 counterexample: calling `update_order_validity_proof` with an order id
absent from the book inserts that id into the verified set anyway, so the
verified set is not a subset of the order map's keys and
`get_verified_orders` returns an order that is not in the book. -/
theorem c10_counterexample :
    1 ∈ c10Book.get_verified_orders ∧
    c10Book.order_map 1 = none ∧
    c10Book.get_verified_orders ≠ NetworkOrderBook.new.get_verified_orders := by
  decide

/-- C10: (corrected) in every book reachable from the empty book in which
`update_order_validity_proof` was only ever invoked on ids present in the
book, the verified set is contained in the order map's keys, and
`get_verified_orders` / `get_local_scheduleable_orders` return only orders
present in the book.  Without that proviso the containment fails (see the
counterexample). -/
theorem verifiedOrdersWithinBook :
    ∀ b : NetworkOrderBook, GoodBookReach b →
      verifiedSubsetKeys b ∧
      (∀ id, id ∈ b.get_verified_orders → (b.order_map id).isSome = true) ∧
      (∀ id, id ∈ b.get_local_scheduleable_orders → (b.order_map id).isSome = true) := by
  intro b h
  induction h with
  | init =>
      refine ⟨?_, ?_, ?_⟩ <;>
        · intro id hmem
          simp [NetworkOrderBook.new, NetworkOrderBook.get_verified_orders,
            NetworkOrderBook.get_local_scheduleable_orders] at hmem
  | step op hreach hok hupd ih =>
      rename_i b0 b1
      have hsub := applyBookOp_verifiedSubsetKeys ih.1 hok hupd
      exact ⟨hsub, fun id hmem => hsub id hmem,
        fun id hmem => hsub id (scheduleable_subset_verified b1 id hmem)⟩

/-- C10 witness: the containment applied to a concrete reachable book. -/
theorem verifiedOrdersWithinBook_witness :
    verifiedSubsetKeys (NetworkOrderBook.new.add_order (NetworkOrder.new 2 3 0 false)) := by
  have h := verifiedOrdersWithinBook
    (NetworkOrderBook.new.add_order (NetworkOrder.new 2 3 0 false))
    (GoodBookReach.step (.add (NetworkOrder.new 2 3 0 false)) GoodBookReach.init rfl
      (fun id p heq => by cases heq))
  exact h.1

end BookClaims

/-! ## On-chain event listener (`chain_events/listener.rs`) -/

/-- `MerkleTreeCoords`: the coordinates (height, index within height) of an
internal node of the global Merkle tree. -/
structure MerkleTreeCoords where
  height : Nat
  index : Nat
  deriving DecidableEq

/-- Modelled from the spec: `MerkleAuthenticationPath` lives in
`state/wallet.rs`, which is not among the sources; the listener stores one
sibling value per tree level (`path_siblings`) together with the leaf index
of the wallet commitment. -/
structure MerkleAuthenticationPath where
  path_siblings : List Nat
  leaf_index : Nat
  deriving DecidableEq

/-- Modelled from the spec: `compute_authentication_path_coords` is defined in
`state/wallet.rs`, which is not among the sources.  The coordinate of the
sibling at level `i` of the path is determined by the leaf index alone (the
sibling of the ancestor at that level), independent of the stored sibling
values: at level `i` the ancestor index is `leaf_index >>> i` and the sibling
index flips its last bit. -/
def authPathCoords (p : MerkleAuthenticationPath) : List MerkleTreeCoords :=
  (List.range p.path_siblings.length).map (fun i =>
    { height := p.path_siblings.length - i, index := (p.leaf_index >>> i) ^^^ 1 })

/-- Lookup in the per-block net map `coord → new value` (a `HashMap` in the
source, modelled as an association list). -/
def coordLookup (m : List (MerkleTreeCoords × Nat)) (c : MerkleTreeCoords) : Option Nat :=
  (m.find? (fun e => e.1 = c)).map Prod.snd

/-- The sibling rewrite loop of `update_wallet_merkle_path`: walk the sibling
list in step with the coordinate list, replacing each sibling whose
coordinate has an entry in the changed-node map. -/
def patchSiblings (m : List (MerkleTreeCoords × Nat)) :
    List Nat → List MerkleTreeCoords → List Nat
  | [], _ => []
  | ss, [] => ss
  | s :: ss, c :: cs =>
      (match coordLookup m c with
        | some v => v
        | none => s) :: patchSiblings m ss cs

/-- `update_wallet_merkle_path` from `chain_events/listener.rs`: for each
`(i, coord)` of the authentication path coordinates, overwrite
`path_siblings[i]` when `coord` is among the updated nodes. -/
def update_wallet_merkle_path (p : MerkleAuthenticationPath)
    (updated_nodes : List (MerkleTreeCoords × Nat)) : MerkleAuthenticationPath :=
  { p with path_siblings := patchSiblings updated_nodes p.path_siblings (authPathCoords p) }

/-- The event keys the listener dispatches on. -/
inductive ChainEventKey
  | merkleRootChanged
  | nullifierSpent
  | other
  deriving DecidableEq

/-- An on-chain event as `handle_event` consumes it.  `node_changes` carries
the per-block net map of `Merkle_internal_node_changed` values that
`handle_root_changed` fetches over RPC for the event's block (most recent
value per coordinate), standing in for that RPC response. -/
structure ChainEvent where
  block_number : Nat
  key : ChainEventKey
  node_changes : List (MerkleTreeCoords × Nat)
  nullifier : Nat
  deriving DecidableEq

/-- The executor state of the on-chain listener: the two block cursors of
`OnChainEventListenerExecutor` plus the wallet index it patches (wallet id →
optional Merkle proof). -/
structure ListenerState where
  start_block : Nat
  merkle_last_consistent_block : Nat
  wallets : List (Nat × Option MerkleAuthenticationPath)
  deriving DecidableEq

/-- Jobs the listener forwards to other workers. -/
inductive ListenerAction
  | shootdown (nullifier : Nat)
  | nullifyOrders (nullifier : Nat)
  deriving DecidableEq

/-- `handle_root_changed`: patch the authentication path of every held wallet
with the block's net node-change map; wallets without a Merkle proof are
skipped.  Note that `merkle_last_consistent_block` is not touched here. -/
def handle_root_changed (st : ListenerState)
    (node_changes : List (MerkleTreeCoords × Nat)) : ListenerState :=
  let patched := st.wallets.map
    (fun w => (w.1, w.2.map (fun p => update_wallet_merkle_path p node_changes)))
  { st with wallets := patched }

/-- `handle_event` from `chain_events/listener.rs`: dispatch on the event key;
a `Merkle_root_changed` event is skipped when its block number is at most
`merkle_last_consistent_block`, otherwise the block's node changes are applied;
a `Nullifier_spent` event enqueues an MPC shootdown and nullifies orders. -/
def handle_event (st : ListenerState) (ev : ChainEvent) :
    ListenerState × List ListenerAction :=
  if ev.key = .merkleRootChanged then
    if ev.block_number ≤ st.merkle_last_consistent_block then (st, [])
    else (handle_root_changed st ev.node_changes, [])
  else if ev.key = .nullifierSpent then
    (st, [.shootdown ev.nullifier, .nullifyOrders ev.nullifier])
  else (st, [])

/-- The startup assignment in `execute()`: both `start_block` and
`merkle_last_consistent_block` are set to the current block number; this is
the only write to `merkle_last_consistent_block` in the source. -/
def listenerInit (current_block : Nat)
    (wallets : List (Nat × Option MerkleAuthenticationPath)) : ListenerState :=
  { start_block := current_block
    merkle_last_consistent_block := current_block
    wallets := wallets }

theorem patchSiblings_length (m : List (MerkleTreeCoords × Nat)) :
    ∀ (ss : List Nat) (cs : List MerkleTreeCoords),
      (patchSiblings m ss cs).length = ss.length
  | [], _ => by cases ‹List MerkleTreeCoords› <;> rfl
  | _ :: _, [] => rfl
  | s :: ss, c :: cs => by
      simp [patchSiblings, patchSiblings_length m ss cs]

theorem patchSiblings_idem (m : List (MerkleTreeCoords × Nat)) :
    ∀ (ss : List Nat) (cs : List MerkleTreeCoords),
      patchSiblings m (patchSiblings m ss cs) cs = patchSiblings m ss cs
  | [], cs => by cases cs <;> rfl
  | _ :: _, [] => rfl
  | s :: ss, c :: cs => by
      cases hc : coordLookup m c <;>
        simp [patchSiblings, hc, patchSiblings_idem m ss cs]

theorem patchSiblings_untouched (m : List (MerkleTreeCoords × Nat)) :
    ∀ (ss : List Nat) (cs : List MerkleTreeCoords) (i : Nat) (c : MerkleTreeCoords),
      cs.get? i = some c → coordLookup m c = none →
      (patchSiblings m ss cs).get? i = ss.get? i
  | [], cs, i, c, _, _ => by cases cs <;> rfl
  | _ :: _, [], i, c, hc, _ => by cases hc
  | s :: ss, c0 :: cs, 0, c, hc, hnone => by
      cases hc
      simp [patchSiblings, hnone]
  | s :: ss, c0 :: cs, i + 1, c, hc, hnone => by
      simpa [patchSiblings] using
        patchSiblings_untouched m ss cs i c (by simpa using hc) hnone

theorem update_wallet_merkle_path_length (p : MerkleAuthenticationPath)
    (m : List (MerkleTreeCoords × Nat)) :
    (update_wallet_merkle_path p m).path_siblings.length = p.path_siblings.length := by
  unfold update_wallet_merkle_path
  exact patchSiblings_length m _ _

theorem authPathCoords_update (p : MerkleAuthenticationPath)
    (m : List (MerkleTreeCoords × Nat)) :
    authPathCoords (update_wallet_merkle_path p m) = authPathCoords p := by
  unfold authPathCoords
  rw [update_wallet_merkle_path_length]
  rfl

/-- C9: applying `update_wallet_merkle_path` twice with the same changed-node
map equals applying it once, and any sibling whose path coordinate is absent
from the map is left unchanged. -/
theorem merklePathPatchIdempotent :
    ∀ (p : MerkleAuthenticationPath) (m : List (MerkleTreeCoords × Nat)),
      update_wallet_merkle_path (update_wallet_merkle_path p m) m =
        update_wallet_merkle_path p m ∧
      (∀ i c, (authPathCoords p).get? i = some c → coordLookup m c = none →
        (update_wallet_merkle_path p m).path_siblings.get? i =
          p.path_siblings.get? i) := by
  intro p m
  constructor
  · show update_wallet_merkle_path (update_wallet_merkle_path p m) m =
      update_wallet_merkle_path p m
    unfold update_wallet_merkle_path
    have hcoords := authPathCoords_update p m
    unfold update_wallet_merkle_path at hcoords
    rw [hcoords]
    rw [patchSiblings_idem]
  · intro i c hc hnone
    unfold update_wallet_merkle_path
    exact patchSiblings_untouched m _ _ i c hc hnone

/-- C9 witness: a two-level path with one coordinate in the map and one
outside it. -/
theorem merklePathPatchIdempotent_witness :
    update_wallet_merkle_path
        (update_wallet_merkle_path ⟨[10, 20], 0⟩ [(⟨2, 1⟩, 42)]) [(⟨2, 1⟩, 42)] =
      update_wallet_merkle_path ⟨[10, 20], 0⟩ [(⟨2, 1⟩, 42)] ∧
    (update_wallet_merkle_path ⟨[10, 20], 0⟩ [(⟨2, 1⟩, 42)]).path_siblings.get? 1 =
      (⟨[10, 20], 0⟩ : MerkleAuthenticationPath).path_siblings.get? 1 := by
  have h := merklePathPatchIdempotent ⟨[10, 20], 0⟩ [(⟨2, 1⟩, 42)]
  exact ⟨h.1, h.2 1 ⟨1, 1⟩ (by decide) (by decide)⟩

/-- The initial listener state of the C8 failing input: startup at block 5
with one wallet holding a single-level Merkle path. -/
def c8InitState : ListenerState := listenerInit 5 [(0, some ⟨[10], 0⟩)]

/-- The C8 failing event: a Merkle root change at block 6 whose net node-change
map rewrites the wallet's only path sibling. -/
def c8Event : ChainEvent :=
  { block_number := 6, key := .merkleRootChanged,
    node_changes := [(⟨1, 1⟩, 42)], nullifier := 0 }

/-- C8: `merkle_last_consistent_block` is written exactly once, at startup;
`handle_event` never advances it — not even after applying a block's Merkle
updates — so it does not track the highest applied block.  Concretely,
starting at block 5 and handling a root change at block 6 rewrites the wallet
path yet leaves the cursor at 5.  (Events at or below the cursor are indeed
skipped, which is the half of the claim that holds.) -/
theorem merkleLastConsistentBlockStuck :
    (∀ (st : ListenerState) (ev : ChainEvent),
      (handle_event st ev).1.merkle_last_consistent_block =
        st.merkle_last_consistent_block) ∧
    (∀ (st : ListenerState) (ev : ChainEvent),
      ev.key = .merkleRootChanged →
      ev.block_number ≤ st.merkle_last_consistent_block →
      handle_event st ev = (st, [])) ∧
    ((handle_event c8InitState c8Event).1.wallets = [(0, some ⟨[42], 0⟩)] ∧
     (handle_event c8InitState c8Event).1.merkle_last_consistent_block = 5 ∧
     c8Event.block_number = 6) := by
  refine ⟨?_, ?_, by decide, by decide, by decide⟩
  · intro st ev
    unfold handle_event
    split
    · split
      · rfl
      · rfl
    · split
      · rfl
      · rfl
  · intro st ev hkey hle
    unfold handle_event
    rw [if_pos hkey, if_pos hle]

/-- C8 witness: the skip rule applied at a concrete input (root change at the
startup block itself is skipped), together with the cursor staying put. -/
theorem merkleLastConsistentBlockStuck_witness :
    handle_event (listenerInit 5 []) (ChainEvent.mk 5 .merkleRootChanged [] 0) =
      (listenerInit 5 [], []) ∧
    (handle_event c8InitState c8Event).1.merkle_last_consistent_block = 5 := by
  refine ⟨merkleLastConsistentBlockStuck.2.1 _ _ (by decide) (by decide), ?_⟩
  exact (merkleLastConsistentBlockStuck.1 c8InitState c8Event).trans (by decide)

/-! ## Handshake executor (`handshake/manager.rs`) -/

/-- `HANDSHAKE_INVISIBILITY_WINDOW_MS` from `handshake/manager.rs`. -/
def HANDSHAKE_INVISIBILITY_WINDOW_MS : Nat := 120000

/-- `HANDSHAKE_CACHE_SIZE` from `handshake/manager.rs`. -/
def HANDSHAKE_CACHE_SIZE : Nat := 500

/-- The local peer's id (`global_state.local_peer_id()`), an opaque constant
of the environment. -/
def local_peer_id : PeerId := 0

/-- Modelled from the spec: the states of a handshake-cache entry
(`handshake/handshake_cache.rs` is not among the sources; spec §3:
`Completed` is permanent, `InvisibleUntil(T)` holds a monotone instant). -/
inductive HandshakeCacheEntryState
  | completed
  | invisibleUntil (t : Nat)
  deriving DecidableEq

/-- The unordered-pair key: the cache is "keyed on the unordered pair, so
`(a,b)` and `(b,a)` collide" (spec §4.B). -/
def normPair (a b : Nat) : Nat × Nat := (Min.min a b, Max.max a b)

/-- Modelled from the spec: the handshake cache
(`handshake/handshake_cache.rs` is not among the sources).  Spec §4.B: a
bounded associative memory over unordered order-id pairs; "the cache has a
fixed capacity and evicts least-recently-used entries".  Entries are kept
most-recently-written first; an insertion beyond capacity drops the stalest
entry. -/
structure HandshakeCache where
  capacity : Nat
  entries : List ((Nat × Nat) × HandshakeCacheEntryState)
  deriving DecidableEq

namespace HandshakeCache

/-- `HandshakeCache::new(size)`. -/
def new (capacity : Nat) : HandshakeCache := { capacity := capacity, entries := [] }

/-- The entry stored under the unordered pair `{a,b}`, if any. -/
def lookupPair (c : HandshakeCache) (a b : Nat) : Option HandshakeCacheEntryState :=
  (c.entries.find? (fun e => e.1 = normPair a b)).map Prod.snd

/-- Modelled from the spec: `mark_completed(a,b)` — idempotent; upgrade from
invisible permitted, downgrade never; refreshes recency and may evict the
least-recently-used entry (spec §4.B). -/
def mark_completed (c : HandshakeCache) (a b : Nat) : HandshakeCache :=
  { c with entries :=
      ((normPair a b, HandshakeCacheEntryState.completed) ::
        c.entries.filter (fun e => e.1 ≠ normPair a b)).take c.capacity }

/-- Modelled from the spec: `mark_invisible(a,b,Δ)` — refresh the expiry to
`now + Δ`; a no-op if the pair is already `Completed` (spec §4.B). -/
def mark_invisible (c : HandshakeCache) (a b : Nat) (delta now : Nat) : HandshakeCache :=
  match c.lookupPair a b with
  | some .completed => c
  | _ =>
      { c with entries :=
          ((normPair a b, HandshakeCacheEntryState.invisibleUntil (now + delta)) ::
            c.entries.filter (fun e => e.1 ≠ normPair a b)).take c.capacity }

/-- Modelled from the spec: `contains(a,b)` — true iff the entry is
`Completed`, or `InvisibleUntil(T)` with `now < T` (spec §4.B). -/
def contains (c : HandshakeCache) (a b : Nat) (now : Nat) : Bool :=
  match c.lookupPair a b with
  | some .completed => true
  | some (.invisibleUntil t) => decide (now < t)
  | none => false

end HandshakeCache

/-- The phases of an in-flight handshake (spec §3). -/
inductive HandshakePhase
  | Proposed
  | AwaitingMpc
  | RunningMpc
  | Completed
  | Aborted
  deriving DecidableEq

/-- Modelled from the spec: a handshake record of the state index
(`handshake/state.rs` is not among the sources; spec §3). -/
structure HandshakeRecord where
  local_order_id : OrderIdentifier
  peer_order_id : OrderIdentifier
  phase : HandshakePhase
  deriving DecidableEq

/-- Modelled from the spec: the handshake state index, keyed by request id
(`handshake/state.rs` is not among the sources; spec §4.C). -/
structure HandshakeStateIndex where
  records : List (Nat × HandshakeRecord)
  deriving DecidableEq

namespace HandshakeStateIndex

/-- `get_state(request_id)`. -/
def get_state (idx : HandshakeStateIndex) (rid : Nat) : Option HandshakeRecord :=
  (idx.records.find? (fun e => e.1 = rid)).map Prod.snd

/-- Modelled from the spec: `new_handshake(req, peer_order, local_order)` —
"fails if `req` already exists or if either order is not present in the Order
Book.  Initial phase = Proposed" (spec §4.C). -/
def new_handshake (idx : HandshakeStateIndex) (book : NetworkOrderBook)
    (rid peer_order local_order : Nat) : Except String HandshakeStateIndex :=
  if (idx.get_state rid).isSome then .error "request id already exists"
  else if ¬ (book.contains_order peer_order && book.contains_order local_order) = true then
    .error "order not found in book"
  else
    .ok { records := (rid,
      { local_order_id := local_order, peer_order_id := peer_order,
        phase := .Proposed }) :: idx.records }

/-- Modelled from the spec: advance the record for `rid` to `Completed`. -/
def completed (idx : HandshakeStateIndex) (rid : Nat) : HandshakeStateIndex :=
  { records := idx.records.map
      (fun e => if e.1 = rid then (e.1, { e.2 with phase := HandshakePhase.Completed }) else e) }

end HandshakeStateIndex

/-- `MatchRejectionReason` from `gossip_api/handshake.rs` as used by the
executor. -/
inductive MatchRejectionReason
  | NoValidityProof
  | LocalOrderNotReady
  | Cached
  deriving DecidableEq

/-- `HandshakeMessage` variants exchanged by the executor. -/
inductive HandshakeMessage
  | Ack
  | ProposeMatchCandidate (peer_id sender_order peer_order : Nat)
  | RejectMatchCandidate (peer_id peer_order sender_order : Nat)
      (reason : MatchRejectionReason)
  | ExecuteMatch (peer_id port : Nat) (previously_matched : Bool) (order1 order2 : Nat)
  deriving DecidableEq

/-- `ConnectionRole` of the brokered MPC network. -/
inductive ConnectionRole
  | Dialer
  | Listener
  deriving DecidableEq

/-- The cluster-management pub-sub payloads the executor emits. -/
inductive ClusterManagementMessage
  | MatchInProgress (a b : Nat)
  | CacheSync (a b : Nat)
  deriving DecidableEq

/-- System-bus events the executor publishes on `HANDSHAKE_STATUS_TOPIC`. -/
inductive BusMessage
  | HandshakeInProgress (local_order_id peer_order_id : Nat)
  | HandshakeCompleted (local_order_id peer_order_id : Nat)
  deriving DecidableEq

/-- The primitive effects of the executor, recorded in execution order. -/
inductive HsAction
  | sendRequest (peer_id rid : Nat) (msg : HandshakeMessage)
  | sendResponse (rid : Nat) (msg : HandshakeMessage)
  | sendBrokerMpcNet (rid peer_id peer_port local_port : Nat) (role : ConnectionRole)
  | sendPubsub (msg : ClusterManagementMessage)
  | publishBus (msg : BusMessage)
  | indexInsert (rid peer_order local_order : Nat)
  | indexCompleted (rid : Nat)
  | cacheMarkCompleted (a b : Nat)
  | cacheMarkInvisible (a b delta : Nat)
  | bookMarkMatched (a b : Nat)
  | runMpc (rid : Nat)
  | submitMatch (rid : Nat)
  deriving DecidableEq

/-- The stores the handshake executor reads and writes: the handshake cache,
the handshake state index, and the shared order book of the relayer state. -/
structure ExecState where
  handshake_cache : HandshakeCache
  handshake_state_index : HandshakeStateIndex
  book : NetworkOrderBook

/-- The outcome of one executor handler: the successor stores, the ordered
effect trace, and the handler's `Result`. -/
structure HsOutcome where
  state : ExecState
  trace : List HsAction
  result : Except String Unit

/-- Modelled from the spec: `RelayerState::mark_order_pair_matched` (the
relayer-state wrapper is not among the sources).  Spec §4.E.5: on MPC
success the executor "records a match in the Order Book (both orders →
Matched{by_local=true})". -/
def setOrderMatched (b : NetworkOrderBook) (id : OrderIdentifier) : NetworkOrderBook :=
  match b.order_map id with
  | some o =>
      let o' := { o with state := NetworkOrderState.Matched true }
      { b with order_map := NetworkOrderBook.mapUpdate b.order_map id o' }
  | none => b

/-- Modelled from the spec: mark both orders of a matched pair (see
`setOrderMatched`). -/
def mark_order_pair_matched (b : NetworkOrderBook) (o1 o2 : OrderIdentifier) :
    NetworkOrderBook :=
  setOrderMatched (setOrderMatched b o1) o2

/-- Whether the sender's claimed order is recorded locally in the `Verified`
state — the first guard of `handle_propose_match_candidate`
(`peer_order_info.is_none() || state != Verified`, negated). -/
def senderOrderVerified (b : NetworkOrderBook) (sender_order : OrderIdentifier) : Bool :=
  match b.get_order_info sender_order with
  | some o => decide (o.state = NetworkOrderState.Verified)
  | none => false

/-- `HandshakeExecutor::choose_match_proposal`: the first locally schedulable
order whose pair with `peer_order` is not contained in the cache. -/
def choose_match_proposal (st : ExecState) (peer_order : OrderIdentifier) (now : Nat) :
    Option OrderIdentifier :=
  (st.book.get_local_scheduleable_orders).find?
    (fun order_id => ! st.handshake_cache.contains order_id peer_order now)

/-- `HandshakeExecutor::perform_handshake`.  Inputs standing for environment
reads: `managing_peer` is the result of `get_peer_managing_order`, `rid` the
fresh `Uuid::new_v4()`, `now` the clock at the cache reads.  Note the source
sends the `ProposeMatchCandidate` request *before* inserting the record into
the handshake state index. -/
def perform_handshake (st : ExecState) (peer_order_id : OrderIdentifier)
    (managing_peer : Option PeerId) (rid : Nat) (now : Nat) : HsOutcome :=
  match choose_match_proposal st peer_order_id now with
  | none => ⟨st, [], .ok ()⟩
  | some local_order_id =>
      match managing_peer with
      | none => ⟨st, [], .ok ()⟩
      | some peer =>
          let sendAct := HsAction.sendRequest peer rid
            (.ProposeMatchCandidate local_peer_id local_order_id peer_order_id)
          match st.handshake_state_index.new_handshake st.book rid peer_order_id
              local_order_id with
          | .ok idx' =>
              ⟨{ st with handshake_state_index := idx' },
               [sendAct, .indexInsert rid peer_order_id local_order_id], .ok ()⟩
          | .error e => ⟨st, [sendAct], .error e⟩

/-- The reply built by `HandshakeExecutor::reject_match_proposal`. -/
def rejectReply (request_id sender_order my_order : Nat)
    (reason : MatchRejectionReason) : HsAction :=
  .sendResponse request_id
    (.RejectMatchCandidate local_peer_id sender_order my_order reason)

/-- `HandshakeExecutor::handle_propose_match_candidate`.  `local_port` stands
for the `pick_unused_port()` result, `now` for the clock at the cache read.
The guards run in source order: sender order verified, local order ready,
state-index insertion (which can fail), cache check, then the broker /
pub-sub / `ExecuteMatch` reply sequence. -/
def handle_propose_match_candidate (st : ExecState)
    (request_id peer_id my_order sender_order : Nat) (now local_port : Nat) : HsOutcome :=
  if ¬ senderOrderVerified st.book sender_order = true then
    ⟨st, [rejectReply request_id sender_order my_order .NoValidityProof], .ok ()⟩
  else if ¬ st.book.order_ready_for_handshake my_order = true then
    ⟨st, [rejectReply request_id sender_order my_order .LocalOrderNotReady], .ok ()⟩
  else
    match st.handshake_state_index.new_handshake st.book request_id sender_order
        my_order with
    | .error e => ⟨st, [], .error e⟩
    | .ok idx' =>
        let st1 : ExecState := { st with handshake_state_index := idx' }
        let insertAct := HsAction.indexInsert request_id sender_order my_order
        if st.handshake_cache.contains my_order sender_order now then
          ⟨st1, [insertAct, rejectReply request_id sender_order my_order .Cached], .ok ()⟩
        else
          ⟨st1,
           [insertAct,
            .sendBrokerMpcNet request_id peer_id 0 local_port .Listener,
            .sendPubsub (.MatchInProgress my_order sender_order),
            .sendResponse request_id
              (.ExecuteMatch local_peer_id local_port false my_order sender_order)],
           .ok ()⟩

/-- `HandshakeExecutor::handle_proposal_rejection`: on `Cached`, update the
local cache; otherwise no state change. -/
def handle_proposal_rejection (st : ExecState) (my_order sender_order : Nat)
    (reason : MatchRejectionReason) : HsOutcome :=
  match reason with
  | .Cached =>
      ⟨{ st with handshake_cache := st.handshake_cache.mark_completed my_order sender_order },
       [.cacheMarkCompleted my_order sender_order], .ok ()⟩
  | _ => ⟨st, [], .ok ()⟩

/-- `HandshakeExecutor::handle_execute_match`: cache the pair as completed,
broker an MPC net as the dialer, reply `Ack` (as a response when a reply
channel is present, as a request otherwise). -/
def handle_execute_match (st : ExecState)
    (request_id peer_id port order1 order2 : Nat) (local_port : Nat)
    (has_channel : Bool) : HsOutcome :=
  let ackAct := if has_channel then HsAction.sendResponse request_id .Ack
    else HsAction.sendRequest peer_id request_id .Ack
  ⟨{ st with handshake_cache := st.handshake_cache.mark_completed order1 order2 },
   [.cacheMarkCompleted order1 order2,
    .sendBrokerMpcNet request_id peer_id port local_port .Dialer,
    ackAct], .ok ()⟩

/-- `HandshakeExecutor::record_completed_match`: look up the record, mark the
pair completed in the cache, record the match in the order book, advance the
record to `Completed`, emit a `CacheSync` pub-sub and a `HandshakeCompleted`
bus event. -/
def record_completed_match (st : ExecState) (request_id : Nat) : HsOutcome :=
  match st.handshake_state_index.get_state request_id with
  | none => ⟨st, [], .error "invalid request id"⟩
  | some state =>
      let l := state.local_order_id
      let p := state.peer_order_id
      let st1 : ExecState :=
        { handshake_cache := st.handshake_cache.mark_completed l p
          handshake_state_index := st.handshake_state_index.completed request_id
          book := mark_order_pair_matched st.book l p }
      ⟨st1,
       [.cacheMarkCompleted l p, .bookMarkMatched l p, .indexCompleted request_id,
        .sendPubsub (.CacheSync l p), .publishBus (.HandshakeCompleted l p)],
       .ok ()⟩

/-- The `MpcNetSetup` arm of `handle_handshake_job`: look up the record (an
error when absent, before any mutation); mark the pair invisible for
`HANDSHAKE_INVISIBILITY_WINDOW_MS`; publish `HandshakeInProgress`; run the
MPC (`mpc_ok` stands for the success of `execute_match`); on success record
the completed match and submit it. -/
def handle_mpc_net_setup (st : ExecState) (request_id : Nat) (now : Nat)
    (mpc_ok : Bool) : HsOutcome :=
  match st.handshake_state_index.get_state request_id with
  | none => ⟨st, [], .error "invalid request id"⟩
  | some order_state =>
      let l := order_state.local_order_id
      let p := order_state.peer_order_id
      let st1 : ExecState :=
        { st with handshake_cache :=
            st.handshake_cache.mark_invisible l p HANDSHAKE_INVISIBILITY_WINDOW_MS now }
      let tr1 : List HsAction :=
        [.cacheMarkInvisible l p HANDSHAKE_INVISIBILITY_WINDOW_MS,
         .publishBus (.HandshakeInProgress l p), .runMpc request_id]
      if mpc_ok then
        let rcm := record_completed_match st1 request_id
        match rcm.result with
        | .ok _ => ⟨rcm.state, tr1 ++ rcm.trace ++ [.submitMatch request_id], .ok ()⟩
        | .error e => ⟨rcm.state, tr1 ++ rcm.trace, .error e⟩
      else ⟨st1, tr1, .error "mpc execution failed"⟩

/-- One executor step: a handshake job (with its environment inputs recorded
in the constructor) or an order-book mutation performed by another worker
(gossip server, proof manager) on the shared state. -/
inductive ExecStep
  | jobPerformHandshake (peer_order rid : Nat) (managing_peer : Option PeerId) (now : Nat)
  | jobPropose (request_id peer_id my_order sender_order now local_port : Nat)
  | jobReject (my_order sender_order : Nat) (reason : MatchRejectionReason)
  | jobExecuteMatch (request_id peer_id port order1 order2 local_port : Nat)
      (has_channel : Bool)
  | jobCacheEntry (order1 order2 : Nat)
  | jobPeerMatchInProgress (order1 order2 now : Nat)
  | jobMpcNetSetup (request_id now : Nat) (mpc_ok : Bool)
  | envBookOp (op : BookOp)

/-- Apply one executor step; a panic inside a shared-store operation of
another worker (`envBookOp` error) leaves the executor's state unchanged. -/
def execStep (st : ExecState) : ExecStep → ExecState × List HsAction
  | .jobPerformHandshake peer_order rid mp now =>
      let o := perform_handshake st peer_order mp rid now
      (o.state, o.trace)
  | .jobPropose request_id peer_id my_order sender_order now local_port =>
      let o := handle_propose_match_candidate st request_id peer_id my_order
        sender_order now local_port
      (o.state, o.trace)
  | .jobReject my_order sender_order reason =>
      let o := handle_proposal_rejection st my_order sender_order reason
      (o.state, o.trace)
  | .jobExecuteMatch request_id peer_id port order1 order2 local_port has_channel =>
      let o := handle_execute_match st request_id peer_id port order1 order2
        local_port has_channel
      (o.state, o.trace)
  | .jobCacheEntry order1 order2 =>
      ({ st with handshake_cache := st.handshake_cache.mark_completed order1 order2 },
       [.cacheMarkCompleted order1 order2])
  | .jobPeerMatchInProgress order1 order2 now =>
      let c' := st.handshake_cache.mark_invisible order1 order2
        HANDSHAKE_INVISIBILITY_WINDOW_MS now
      ({ st with handshake_cache := c' },
       [.cacheMarkInvisible order1 order2 HANDSHAKE_INVISIBILITY_WINDOW_MS])
  | .jobMpcNetSetup request_id now mpc_ok =>
      let o := handle_mpc_net_setup st request_id now mpc_ok
      (o.state, o.trace)
  | .envBookOp op =>
      match applyBookOp st.book op with
      | .ok b' => ({ st with book := b' }, [])
      | .error _ => (st, [])

/-- Run a list of executor steps, collecting the per-step traces. -/
def runSteps (st : ExecState) : List ExecStep → ExecState × List (List HsAction)
  | [] => (st, [])
  | s :: rest =>
      let o := execStep st s
      let r := runSteps o.1 rest
      (r.1, o.2 :: r.2)

/-- The initial executor state built by `HandshakeExecutor::new`: an empty
cache of capacity `HANDSHAKE_CACHE_SIZE`, an empty state index, and the
empty order book. -/
def initExecState : ExecState :=
  { handshake_cache := HandshakeCache.new HANDSHAKE_CACHE_SIZE
    handshake_state_index := { records := [] }
    book := NetworkOrderBook.new }

section CacheLemmas

open HandshakeCache

theorem lookupPair_congr (c : HandshakeCache) {x y a b : Nat}
    (h : normPair x y = normPair a b) : c.lookupPair x y = c.lookupPair a b := by
  unfold HandshakeCache.lookupPair
  rw [h]

theorem find?_take {α : Type} (p : α → Bool) :
    ∀ (l : List α) (n : Nat) (v : α), (l.take n).find? p = some v → l.find? p = some v := by
  intro l
  induction l with
  | nil => intro n v h; simp at h
  | cons x xs ih =>
      intro n v h
      cases n with
      | zero => simp [List.take] at h
      | succ m =>
          rw [List.take_succ_cons] at h
          cases hp : p x with
          | true =>
              rw [List.find?_cons_of_pos _ hp] at h ⊢
              exact h
          | false =>
              rw [List.find?_cons_of_neg _ (by simp [hp])] at h ⊢
              exact ih m v h

theorem find?_filter_ne (k k' : Nat × Nat) (hne : k' ≠ k) :
    ∀ (l : List ((Nat × Nat) × HandshakeCacheEntryState)),
      (l.filter (fun e => e.1 ≠ k)).find? (fun e => e.1 = k') =
        l.find? (fun e => e.1 = k') := by
  intro l
  induction l with
  | nil => rfl
  | cons e es ih =>
      by_cases hek : e.1 = k
      · have h1 : (fun e => decide (e.1 ≠ k)) e = false := by simp [hek]
        rw [List.filter_cons_of_neg (by simpa using h1)]
        have h2 : (fun e => decide (e.1 = k')) e = false := by
          simp only [decide_eq_false_iff_not]
          rw [hek]
          exact fun hc => hne hc.symm
        rw [List.find?_cons_of_neg _ (by simpa using h2)]
        exact ih
      · rw [List.filter_cons_of_pos (by simpa using hek)]
        by_cases hek' : e.1 = k'
        · rw [List.find?_cons_of_pos _ (by simpa using hek'),
            List.find?_cons_of_pos _ (by simpa using hek')]
        · rw [List.find?_cons_of_neg _ (by simpa using hek'),
            List.find?_cons_of_neg _ (by simpa using hek')]
          exact ih

theorem lookupPair_mark_completed_self (c : HandshakeCache) (a b x y : Nat)
    (h : normPair x y = normPair a b) (hcap : 0 < c.capacity) :
    (c.mark_completed a b).lookupPair x y = some .completed := by
  unfold HandshakeCache.mark_completed HandshakeCache.lookupPair
  cases hc : c.capacity with
  | zero => omega
  | succ m =>
      simp only [hc, List.take_succ_cons]
      rw [List.find?_cons_of_pos _ (by simpa using h.symm)]
      rfl

theorem lookupPair_mark_completed_other (c : HandshakeCache) (a b x y : Nat)
    (h : normPair x y ≠ normPair a b) (v : HandshakeCacheEntryState)
    (hv : (c.mark_completed a b).lookupPair x y = some v) :
    c.lookupPair x y = some v := by
  unfold HandshakeCache.mark_completed HandshakeCache.lookupPair at hv
  unfold HandshakeCache.lookupPair
  simp only [Option.map_eq_some'] at hv ⊢
  obtain ⟨e, he, hev⟩ := hv
  have he' := find?_take _ _ _ _ he
  rw [List.find?_cons_of_neg _ (by simpa using fun hc => h hc.symm)] at he'
  rw [find?_filter_ne _ _ h] at he'
  exact ⟨e, he', hev⟩

theorem lookupPair_mark_invisible_other (c : HandshakeCache) (a b x y delta now : Nat)
    (h : normPair x y ≠ normPair a b) (v : HandshakeCacheEntryState)
    (hv : (c.mark_invisible a b delta now).lookupPair x y = some v) :
    c.lookupPair x y = some v := by
  unfold HandshakeCache.mark_invisible at hv
  split at hv
  · exact hv
  · unfold HandshakeCache.lookupPair at hv
    unfold HandshakeCache.lookupPair
    simp only [Option.map_eq_some'] at hv ⊢
    obtain ⟨e, he, hev⟩ := hv
    have he' := find?_take _ _ _ _ he
    rw [List.find?_cons_of_neg _ (by simpa using fun hc => h hc.symm)] at he'
    rw [find?_filter_ne _ _ h] at he'
    exact ⟨e, he', hev⟩

theorem lookupPair_mark_invisible_completed (c : HandshakeCache) (a b x y delta now : Nat)
    (h : normPair x y = normPair a b)
    (hc : c.lookupPair x y = some .completed) :
    (c.mark_invisible a b delta now).lookupPair x y = some .completed := by
  have hab : c.lookupPair a b = some .completed := (lookupPair_congr c h) ▸ hc
  unfold HandshakeCache.mark_invisible
  rw [hab]
  exact hc

/-- After any single `mark_completed`, a pair that was `Completed` is either
still `Completed` or wholly evicted, never downgraded. -/
theorem mark_completed_from_completed (c : HandshakeCache) (x y a b : Nat)
    (hcap : 0 < c.capacity)
    (h : c.lookupPair a b = some .completed) :
    (c.mark_completed x y).lookupPair a b = some .completed ∨
      (c.mark_completed x y).lookupPair a b = none := by
  by_cases hk : normPair a b = normPair x y
  · exact Or.inl (lookupPair_mark_completed_self c x y a b hk hcap)
  · cases hv : (c.mark_completed x y).lookupPair a b with
    | none => exact Or.inr rfl
    | some v =>
        have := lookupPair_mark_completed_other c x y a b hk v hv
        rw [h] at this
        cases this
        exact Or.inl rfl

/-- After any single `mark_completed`, a pair that was absent is either still
absent or now `Completed` (when it is the marked pair itself). -/
theorem mark_completed_from_none (c : HandshakeCache) (x y a b : Nat)
    (hcap : 0 < c.capacity)
    (h : c.lookupPair a b = none) :
    (c.mark_completed x y).lookupPair a b = some .completed ∨
      (c.mark_completed x y).lookupPair a b = none := by
  by_cases hk : normPair a b = normPair x y
  · exact Or.inl (lookupPair_mark_completed_self c x y a b hk hcap)
  · cases hv : (c.mark_completed x y).lookupPair a b with
    | none => exact Or.inr rfl
    | some v =>
        have := lookupPair_mark_completed_other c x y a b hk v hv
        rw [h] at this
        cases this

/-- After any single `mark_invisible`, a pair that was `Completed` is either
still `Completed` (the no-op rule) or wholly evicted. -/
theorem mark_invisible_from_completed (c : HandshakeCache) (x y delta now a b : Nat)
    (h : c.lookupPair a b = some .completed) :
    (c.mark_invisible x y delta now).lookupPair a b = some .completed ∨
      (c.mark_invisible x y delta now).lookupPair a b = none := by
  by_cases hk : normPair a b = normPair x y
  · exact Or.inl (lookupPair_mark_invisible_completed c x y a b delta now hk h)
  · cases hv : (c.mark_invisible x y delta now).lookupPair a b with
    | none => exact Or.inr rfl
    | some v =>
        have := lookupPair_mark_invisible_other c x y a b delta now hk v hv
        rw [h] at this
        cases this
        exact Or.inl rfl

/-- A `Completed` entry makes `contains` true at every time. -/
theorem contains_of_completed (c : HandshakeCache) (a b now : Nat)
    (h : c.lookupPair a b = some .completed) :
    c.contains a b now = true := by
  unfold HandshakeCache.contains
  rw [h]

end CacheLemmas

section HandshakeClaims

open NetworkOrderBook

theorem setOrderMatched_lookup (b : NetworkOrderBook) (id id' : OrderIdentifier) :
    (setOrderMatched b id).order_map id' =
      if id' = id then
        (b.order_map id).map (fun o => { o with state := NetworkOrderState.Matched true })
      else b.order_map id' := by
  unfold setOrderMatched
  cases hmap : b.order_map id with
  | some o =>
      simp only [hmap, mapUpdate_lookup]
      rfl
  | none =>
      simp only [hmap]
      split
      · rename_i heq; rw [heq, hmap]; rfl
      · rfl

theorem mark_order_pair_matched_states (b : NetworkOrderBook) (o1 o2 : OrderIdentifier) :
    ((b.order_map o1).isSome = true →
      bookStateOf (mark_order_pair_matched b o1 o2) o1 = some (.Matched true)) ∧
    ((b.order_map o2).isSome = true →
      bookStateOf (mark_order_pair_matched b o1 o2) o2 = some (.Matched true)) := by
  constructor
  · intro h1
    unfold mark_order_pair_matched bookStateOf
    rw [setOrderMatched_lookup]
    by_cases h12 : o1 = o2
    · rw [if_pos h12, ← h12, setOrderMatched_lookup, if_pos rfl]
      cases hmap : b.order_map o1 with
      | some o => rfl
      | none => rw [hmap] at h1; cases h1
    · rw [if_neg h12, setOrderMatched_lookup, if_pos rfl]
      cases hmap : b.order_map o1 with
      | some o => rfl
      | none => rw [hmap] at h1; cases h1
  · intro h2
    unfold mark_order_pair_matched bookStateOf
    rw [setOrderMatched_lookup, if_pos rfl, setOrderMatched_lookup]
    by_cases h21 : o2 = o1
    · rw [if_pos h21]
      rw [h21] at h2
      cases hmap : b.order_map o1 with
      | some o => rfl
      | none => rw [hmap] at h2; cases h2
    · rw [if_neg h21]
      cases hmap : b.order_map o2 with
      | some o => rfl
      | none => rw [hmap] at h2; cases h2

theorem record_completed_match_eq (st : ExecState) (rid : Nat) (r : HandshakeRecord)
    (hget : st.handshake_state_index.get_state rid = some r) :
    record_completed_match st rid =
      ⟨{ handshake_cache :=
           st.handshake_cache.mark_completed r.local_order_id r.peer_order_id
         handshake_state_index := st.handshake_state_index.completed rid
         book := mark_order_pair_matched st.book r.local_order_id r.peer_order_id },
       [.cacheMarkCompleted r.local_order_id r.peer_order_id,
        .bookMarkMatched r.local_order_id r.peer_order_id,
        .indexCompleted rid,
        .sendPubsub (.CacheSync r.local_order_id r.peer_order_id),
        .publishBus (.HandshakeCompleted r.local_order_id r.peer_order_id)],
       .ok ()⟩ := by
  unfold record_completed_match
  rw [hget]

/-- C7: the `MpcNetSetup` handler: with no record for the request id it
returns an error with no state change and no trace; with a record it marks
the pair invisible for exactly `HANDSHAKE_INVISIBILITY_WINDOW_MS = 120000` ms
and publishes `HandshakeInProgress` before running the MPC; on MPC success it
then marks the pair `Completed`, records both orders as
`Matched{by_local_node = true}` in the book, advances the record to
`Completed`, emits a `CacheSync` pub-sub and publishes `HandshakeCompleted`,
in that order. -/
theorem mpcNetSetupCharacterization :
    ∀ (st : ExecState) (request_id now : Nat) (mpc_ok : Bool),
      (st.handshake_state_index.get_state request_id = none →
        handle_mpc_net_setup st request_id now mpc_ok = ⟨st, [], .error "invalid request id"⟩) ∧
      (∀ r, st.handshake_state_index.get_state request_id = some r →
        handle_mpc_net_setup st request_id now true =
          ⟨{ handshake_cache :=
               (st.handshake_cache.mark_invisible r.local_order_id r.peer_order_id
                 HANDSHAKE_INVISIBILITY_WINDOW_MS now).mark_completed
                 r.local_order_id r.peer_order_id
             handshake_state_index := st.handshake_state_index.completed request_id
             book := mark_order_pair_matched st.book r.local_order_id r.peer_order_id },
           [.cacheMarkInvisible r.local_order_id r.peer_order_id
              HANDSHAKE_INVISIBILITY_WINDOW_MS,
            .publishBus (.HandshakeInProgress r.local_order_id r.peer_order_id),
            .runMpc request_id,
            .cacheMarkCompleted r.local_order_id r.peer_order_id,
            .bookMarkMatched r.local_order_id r.peer_order_id,
            .indexCompleted request_id,
            .sendPubsub (.CacheSync r.local_order_id r.peer_order_id),
            .publishBus (.HandshakeCompleted r.local_order_id r.peer_order_id),
            .submitMatch request_id],
           .ok ()⟩) ∧
      (∀ o1 o2 : OrderIdentifier, (st.book.order_map o1).isSome = true →
        bookStateOf (mark_order_pair_matched st.book o1 o2) o1 = some (.Matched true)) ∧
      (∀ o1 o2 : OrderIdentifier, (st.book.order_map o2).isSome = true →
        bookStateOf (mark_order_pair_matched st.book o1 o2) o2 = some (.Matched true)) ∧
      HANDSHAKE_INVISIBILITY_WINDOW_MS = 120000 := by
  intro st request_id now mpc_ok
  refine ⟨?_, ?_, ?_, ?_, rfl⟩
  · intro hget
    unfold handle_mpc_net_setup
    rw [hget]
  · intro r hget
    unfold handle_mpc_net_setup
    rw [hget]
    dsimp only
    have hget1 : (ExecState.mk
        (st.handshake_cache.mark_invisible r.local_order_id r.peer_order_id
          HANDSHAKE_INVISIBILITY_WINDOW_MS now)
        st.handshake_state_index st.book).handshake_state_index.get_state request_id =
        some r := hget
    rw [record_completed_match_eq _ _ _ hget1]
    rfl
  · intro o1 o2 h
    exact (mark_order_pair_matched_states st.book o1 o2).1 h
  · intro o1 o2 h
    exact (mark_order_pair_matched_states st.book o1 o2).2 h

/-- The concrete state of the C7 witness: one record in the state index. -/
def c7State : ExecState :=
  { handshake_cache := HandshakeCache.new HANDSHAKE_CACHE_SIZE
    handshake_state_index := { records := [(9, ⟨1, 2, .Proposed⟩)] }
    book := NetworkOrderBook.new }

/-- C7 witness: the characterization applied at a concrete state and request
id, on both the missing-record and the success paths. -/
theorem mpcNetSetupCharacterization_witness :
    handle_mpc_net_setup c7State 8 0 true = ⟨c7State, [], .error "invalid request id"⟩ ∧
    (handle_mpc_net_setup c7State 9 0 true).trace =
      [.cacheMarkInvisible 1 2 HANDSHAKE_INVISIBILITY_WINDOW_MS,
       .publishBus (.HandshakeInProgress 1 2),
       .runMpc 9,
       .cacheMarkCompleted 1 2,
       .bookMarkMatched 1 2,
       .indexCompleted 9,
       .sendPubsub (.CacheSync 1 2),
       .publishBus (.HandshakeCompleted 1 2),
       .submitMatch 9] := by
  constructor
  · exact (mpcNetSetupCharacterization c7State 8 0 true).1 (by decide)
  · rw [(mpcNetSetupCharacterization c7State 9 0 true).2.1 ⟨1, 2, .Proposed⟩ (by decide)]

theorem senderVerified_contains (b : NetworkOrderBook) (s : OrderIdentifier)
    (h : senderOrderVerified b s = true) : b.contains_order s = true := by
  unfold senderOrderVerified NetworkOrderBook.get_order_info at h
  unfold NetworkOrderBook.contains_order
  cases hmap : b.order_map s with
  | some o => rfl
  | none => rw [hmap] at h; cases h

theorem ready_contains (b : NetworkOrderBook) (id : OrderIdentifier)
    (h : b.order_ready_for_handshake id = true) : b.contains_order id = true := by
  unfold NetworkOrderBook.order_ready_for_handshake at h
  have h1 := (Bool.and_eq_true _ _).mp h
  unfold NetworkOrderBook.has_validity_proof at h1
  unfold NetworkOrderBook.contains_order
  cases hmap : b.order_map id with
  | some o => rfl
  | none => rw [hmap] at h1; cases h1.1

theorem new_handshake_ok (idx : HandshakeStateIndex) (book : NetworkOrderBook)
    (rid po lo : Nat) (hfresh : idx.get_state rid = none)
    (hpo : book.contains_order po = true) (hlo : book.contains_order lo = true) :
    idx.new_handshake book rid po lo =
      .ok ⟨(rid, ⟨lo, po, .Proposed⟩) :: idx.records⟩ := by
  unfold HandshakeStateIndex.new_handshake
  rw [hfresh, hpo, hlo]
  rfl

theorem new_handshake_dup (idx : HandshakeStateIndex) (book : NetworkOrderBook)
    (rid po lo : Nat) (hdup : (idx.get_state rid).isSome = true) :
    idx.new_handshake book rid po lo = .error "request id already exists" := by
  unfold HandshakeStateIndex.new_handshake
  rw [hdup]
  rfl

/-- C6: (corrected) the `PerformHandshake` handler: the local order is the
first schedulable order whose pair with `peer_order` is not contained in the
cache; when none exists or the managing peer is unknown the job is dropped
with no message and no record; otherwise the `ProposeMatchCandidate` request
is sent *first* and the record (phase `Proposed`) is inserted into the state
index *after* the send — the spec's insert-before-send order is reversed in
the code. -/
theorem performHandshakeCharacterization :
    ∀ (st : ExecState) (peer_order rid : Nat) (mp : Option PeerId) (now : Nat),
      (choose_match_proposal st peer_order now =
        (st.book.get_local_scheduleable_orders).find?
          (fun order_id => ! st.handshake_cache.contains order_id peer_order now)) ∧
      (choose_match_proposal st peer_order now = none →
        perform_handshake st peer_order mp rid now = ⟨st, [], .ok ()⟩) ∧
      (perform_handshake st peer_order none rid now = ⟨st, [], .ok ()⟩) ∧
      (∀ l peer, choose_match_proposal st peer_order now = some l → mp = some peer →
        st.handshake_state_index.get_state rid = none →
        st.book.contains_order peer_order = true →
        st.book.contains_order l = true →
        perform_handshake st peer_order mp rid now =
          ⟨{ st with handshake_state_index :=
               ⟨(rid, ⟨l, peer_order, .Proposed⟩) :: st.handshake_state_index.records⟩ },
           [.sendRequest peer rid (.ProposeMatchCandidate local_peer_id l peer_order),
            .indexInsert rid peer_order l], .ok ()⟩) ∧
      (∀ l peer e, choose_match_proposal st peer_order now = some l → mp = some peer →
        st.handshake_state_index.new_handshake st.book rid peer_order l = .error e →
        perform_handshake st peer_order mp rid now =
          ⟨st, [.sendRequest peer rid (.ProposeMatchCandidate local_peer_id l peer_order)],
           .error e⟩) := by
  intro st peer_order rid mp now
  refine ⟨rfl, ?_, ?_, ?_, ?_⟩
  · intro hchoose
    unfold perform_handshake
    rw [hchoose]
  · unfold perform_handshake
    cases hchoose : choose_match_proposal st peer_order now with
    | none => rfl
    | some l => rfl
  · intro l peer hchoose hmp hfresh hpo hlo
    subst hmp
    unfold perform_handshake
    rw [hchoose]
    dsimp only
    rw [new_handshake_ok _ _ _ _ _ hfresh hpo hlo]
  · intro l peer e hchoose hmp herr
    subst hmp
    unfold perform_handshake
    rw [hchoose]
    dsimp only
    rw [herr]

/-- The book/state setup of the C6 counterexample: a ready local order `1`
and a verified non-local order `3`, reached through the executor's shared
stores from the initial state. -/
def c6Setup : List ExecStep :=
  [.envBookOp (.add (NetworkOrder.new 1 5 0 true)),
   .envBookOp (.updateProof 1 ⟨7⟩),
   .envBookOp (.attachWitness 1 55),
   .envBookOp (.add (NetworkOrder.new 3 6 0 false)),
   .envBookOp (.updateProof 3 ⟨8⟩)]

/-- The executor state of the C6 counterexample. -/
def c6State : ExecState := (runSteps initExecState c6Setup).1

/-- C6 counterexample: on the success path the handler's effect trace is
`[send ProposeMatchCandidate, insert record]` — the send comes first and the
state-index insertion second, so the record is *not* inserted before the
message is sent as the claim requires. -/
theorem c6_counterexample :
    (perform_handshake c6State 3 (some 7) 42 0).trace.get? 0 =
      some (.sendRequest 7 42 (.ProposeMatchCandidate 0 1 3)) ∧
    (perform_handshake c6State 3 (some 7) 42 0).trace.get? 1 =
      some (.indexInsert 42 3 1) ∧
    (perform_handshake c6State 3 (some 7) 42 0).trace.length = 2 := by
  decide

/-- C6 witness: the characterization applied at the concrete state of the
counterexample. -/
theorem performHandshakeCharacterization_witness :
    perform_handshake c6State 3 (some 7) 42 0 =
      ⟨{ c6State with handshake_state_index :=
           ⟨[(42, ⟨1, 3, .Proposed⟩)]⟩ },
       [.sendRequest 7 42 (.ProposeMatchCandidate local_peer_id 1 3),
        .indexInsert 42 3 1], .ok ()⟩ ∧
    perform_handshake c6State 3 none 42 0 = ⟨c6State, [], .ok ()⟩ := by
  constructor
  · exact (performHandshakeCharacterization c6State 3 42 (some 7) 0).2.2.2.1 1 7
      (by decide) rfl (by decide) (by decide) (by decide)
  · exact (performHandshakeCharacterization c6State 3 42 none 0).2.2.1

/-- C2: (corrected) the inbound `ProposeMatchCandidate` handler: rejects with
`NoValidityProof` iff the sender's order is absent or not `Verified`; else
rejects with `LocalOrderNotReady` iff the local order lacks proof or witness;
else — *provided the request id is fresh* (a duplicate id makes the
state-index insertion fail and the handler error out with no reply at all) —
it inserts the handshake record and rejects with `Cached` iff the cache
*contains* the pair, i.e. the entry is `Completed` or a still-live
`InvisibleUntil`, not only `Completed`; otherwise it emits `BrokerMpcNet`
(role `Listener`, fresh local port), publishes `MatchInProgress(my_order,
sender_order)` and replies `ExecuteMatch` with that port. -/
theorem handleProposeCharacterization :
    ∀ (st : ExecState) (request_id peer_id my_order sender_order now local_port : Nat),
      (senderOrderVerified st.book sender_order = false →
        handle_propose_match_candidate st request_id peer_id my_order sender_order
            now local_port =
          ⟨st, [rejectReply request_id sender_order my_order .NoValidityProof], .ok ()⟩) ∧
      (senderOrderVerified st.book sender_order = true →
       st.book.order_ready_for_handshake my_order = false →
        handle_propose_match_candidate st request_id peer_id my_order sender_order
            now local_port =
          ⟨st, [rejectReply request_id sender_order my_order .LocalOrderNotReady], .ok ()⟩) ∧
      (senderOrderVerified st.book sender_order = true →
       st.book.order_ready_for_handshake my_order = true →
       (st.handshake_state_index.get_state request_id).isSome = true →
        handle_propose_match_candidate st request_id peer_id my_order sender_order
            now local_port =
          ⟨st, [], .error "request id already exists"⟩) ∧
      (senderOrderVerified st.book sender_order = true →
       st.book.order_ready_for_handshake my_order = true →
       st.handshake_state_index.get_state request_id = none →
       st.handshake_cache.contains my_order sender_order now = true →
        handle_propose_match_candidate st request_id peer_id my_order sender_order
            now local_port =
          ⟨{ st with handshake_state_index :=
               ⟨(request_id, ⟨my_order, sender_order, .Proposed⟩) ::
                 st.handshake_state_index.records⟩ },
           [.indexInsert request_id sender_order my_order,
            rejectReply request_id sender_order my_order .Cached], .ok ()⟩) ∧
      (senderOrderVerified st.book sender_order = true →
       st.book.order_ready_for_handshake my_order = true →
       st.handshake_state_index.get_state request_id = none →
       st.handshake_cache.contains my_order sender_order now = false →
        handle_propose_match_candidate st request_id peer_id my_order sender_order
            now local_port =
          ⟨{ st with handshake_state_index :=
               ⟨(request_id, ⟨my_order, sender_order, .Proposed⟩) ::
                 st.handshake_state_index.records⟩ },
           [.indexInsert request_id sender_order my_order,
            .sendBrokerMpcNet request_id peer_id 0 local_port .Listener,
            .sendPubsub (.MatchInProgress my_order sender_order),
            .sendResponse request_id
              (.ExecuteMatch local_peer_id local_port false my_order sender_order)],
           .ok ()⟩) := by
  intro st request_id peer_id my_order sender_order now local_port
  refine ⟨?_, ?_, ?_, ?_, ?_⟩
  · intro hsv
    unfold handle_propose_match_candidate
    rw [if_pos (by simp [hsv])]
  · intro hsv hready
    unfold handle_propose_match_candidate
    rw [if_neg (by simp [hsv]), if_pos (by simp [hready])]
  · intro hsv hready hdup
    unfold handle_propose_match_candidate
    rw [if_neg (by simp [hsv]), if_neg (by simp [hready]),
      new_handshake_dup _ _ _ _ _ hdup]
  · intro hsv hready hfresh hcont
    unfold handle_propose_match_candidate
    rw [if_neg (by simp [hsv]), if_neg (by simp [hready]),
      new_handshake_ok _ _ _ _ _ hfresh (senderVerified_contains _ _ hsv)
        (ready_contains _ _ hready)]
    dsimp only
    rw [if_pos hcont]
  · intro hsv hready hfresh hcont
    unfold handle_propose_match_candidate
    rw [if_neg (by simp [hsv]), if_neg (by simp [hready]),
      new_handshake_ok _ _ _ _ _ hfresh (senderVerified_contains _ _ hsv)
        (ready_contains _ _ hready)]
    dsimp only
    rw [if_neg (by simp [hcont])]

/-- The setup of the C2 counterexample: a ready local order `1`, a verified
remote order `2`, and a cluster sibling's `MatchInProgress` on the pair,
which puts an `InvisibleUntil` (not `Completed`) entry into the cache. -/
def c2Setup : List ExecStep :=
  [.envBookOp (.add (NetworkOrder.new 1 5 0 true)),
   .envBookOp (.updateProof 1 ⟨7⟩),
   .envBookOp (.attachWitness 1 55),
   .envBookOp (.add (NetworkOrder.new 2 6 0 false)),
   .envBookOp (.updateProof 2 ⟨8⟩),
   .jobPeerMatchInProgress 1 2 0]

/-- The executor state of the C2 counterexample. -/
def c2State : ExecState := (runSteps initExecState c2Setup).1

/-- C2 counterexample: the cache entry for `{1,2}` is `InvisibleUntil 120000`
— not `Completed` — yet the handler replies `Reject(Cached)`, because the
code tests `cache.contains`, which is also true for unexpired invisibility
windows.  So "replies Reject(Cached) iff the cache entry is Completed" is
false. -/
theorem c2_counterexample :
    c2State.handshake_cache.lookupPair 1 2 =
      some (.invisibleUntil HANDSHAKE_INVISIBILITY_WINDOW_MS) ∧
    (handle_propose_match_candidate c2State 99 7 1 2 1 8080).trace =
      [.indexInsert 99 2 1, rejectReply 99 2 1 .Cached] := by
  decide

/-- C2 witness: the characterization applied at concrete states — the
`NoValidityProof` branch on the empty book and the `Cached` branch of the
counterexample state. -/
theorem handleProposeCharacterization_witness :
    handle_propose_match_candidate initExecState 1 2 3 4 0 80 =
      ⟨initExecState, [rejectReply 1 4 3 .NoValidityProof], .ok ()⟩ ∧
    handle_propose_match_candidate c2State 99 7 1 2 1 8080 =
      ⟨{ c2State with handshake_state_index := ⟨[(99, ⟨1, 2, .Proposed⟩)]⟩ },
       [.indexInsert 99 2 1, rejectReply 99 2 1 .Cached], .ok ()⟩ := by
  constructor
  · exact (handleProposeCharacterization initExecState 1 2 3 4 0 80).1 (by decide)
  · exact (handleProposeCharacterization c2State 99 7 1 2 1 8080).2.2.2.1
      (by decide) (by decide) (by decide) (by decide)

theorem take_append_take {α : Type} :
    ∀ (A : List α) (B : List α) (k n : Nat), n ≤ k →
      (A ++ B.take k).take n = (A ++ B).take n := by
  intro A
  induction A with
  | nil =>
      intro B k n h
      simp only [List.nil_append, List.take_take]
      rw [Nat.min_eq_left h]
  | cons a A ih =>
      intro B k n h
      cases n with
      | zero => rfl
      | succ m =>
          simp only [List.cons_append, List.take_succ_cons]
          rw [ih B k m (Nat.le_of_succ_le h)]

/-- Fold `mark_completed` over a list of pairs. -/
def markCompletedMany (c : HandshakeCache) (ps : List (Nat × Nat)) : HandshakeCache :=
  ps.foldl (fun c p => c.mark_completed p.1 p.2) c

theorem mark_completed_entries_of_absent (c : HandshakeCache) (a b : Nat)
    (h : normPair a b ∉ c.entries.map Prod.fst) :
    (c.mark_completed a b).entries =
      ((normPair a b, HandshakeCacheEntryState.completed) :: c.entries).take c.capacity := by
  unfold HandshakeCache.mark_completed
  have hfilter : c.entries.filter (fun e => e.1 ≠ normPair a b) = c.entries := by
    apply List.filter_eq_self.mpr
    intro e he
    simp only [decide_eq_true_iff]
    intro heq
    exact h (List.mem_map.mpr ⟨e, he, heq⟩)
  rw [hfilter]

theorem markCompletedMany_capacity (ps : List (Nat × Nat)) :
    ∀ c : HandshakeCache, (markCompletedMany c ps).capacity = c.capacity := by
  induction ps with
  | nil => intro c; rfl
  | cons p ps ih =>
      intro c
      exact (ih (c.mark_completed p.1 p.2)).trans rfl

theorem markCompletedMany_entries :
    ∀ (ps : List (Nat × Nat)) (c : HandshakeCache),
      ((ps.map fun p => normPair p.1 p.2).Nodup) →
      (∀ p ∈ ps, normPair p.1 p.2 ∉ c.entries.map Prod.fst) →
      c.entries.length ≤ c.capacity →
      (markCompletedMany c ps).entries =
        ((ps.reverse.map fun p =>
          (normPair p.1 p.2, HandshakeCacheEntryState.completed)) ++ c.entries).take
          c.capacity := by
  intro ps
  induction ps with
  | nil =>
      intro c _ _ hlen
      simp only [List.reverse_nil, List.map_nil, List.nil_append, markCompletedMany,
        List.foldl_nil]
      exact (List.take_of_length_le hlen).symm
  | cons p ps ih =>
      intro c hnodup hdisj hlen
      have hfresh : normPair p.1 p.2 ∉ c.entries.map Prod.fst :=
        hdisj p (List.mem_cons_self _ _)
      have hent1 := mark_completed_entries_of_absent c p.1 p.2 hfresh
      have hnodup' : ((ps.map fun q => normPair q.1 q.2)).Nodup := by
        rw [List.map_cons] at hnodup
        exact (List.nodup_cons.mp hnodup).2
      have hhead : normPair p.1 p.2 ∉ ps.map fun q => normPair q.1 q.2 := by
        rw [List.map_cons] at hnodup
        exact (List.nodup_cons.mp hnodup).1
      have hdisj' : ∀ q ∈ ps,
          normPair q.1 q.2 ∉ (c.mark_completed p.1 p.2).entries.map Prod.fst := by
        intro q hq hmem
        rw [hent1] at hmem
        obtain ⟨e, he, hkey⟩ := List.mem_map.mp hmem
        have he' := List.take_subset _ _ he
        rcases List.mem_cons.mp he' with rfl | he''
        · exact hhead (List.mem_map.mpr ⟨q, hq, hkey.symm⟩)
        · exact hdisj q (List.mem_cons_of_mem _ hq) (List.mem_map.mpr ⟨e, he'', hkey⟩)
      have hlen1 : (c.mark_completed p.1 p.2).entries.length ≤
          (c.mark_completed p.1 p.2).capacity := by
        rw [hent1]
        show (List.take c.capacity _).length ≤ c.capacity
        rw [List.length_take]
        exact Nat.min_le_left _ _
      have hstep : markCompletedMany c (p :: ps) =
          markCompletedMany (c.mark_completed p.1 p.2) ps := rfl
      rw [hstep, ih (c.mark_completed p.1 p.2) hnodup' hdisj' hlen1, hent1]
      show (_ ++ (_ :: c.entries).take c.capacity).take c.capacity = _
      rw [take_append_take _ _ _ _ (Nat.le_refl _)]
      congr 1
      rw [List.reverse_cons, List.map_append]
      rw [List.append_assoc]
      rfl

/-- An action that brokers an MPC connection or accepts a match: a
`BrokerMpcNet` directive or an `ExecuteMatch` reply. -/
def brokersOrAccepts : HsAction → Bool
  | .sendBrokerMpcNet _ _ _ _ _ => true
  | .sendResponse _ (.ExecuteMatch _ _ _ _ _) => true
  | .sendRequest _ _ (.ExecuteMatch _ _ _ _ _) => true
  | _ => false

/-- An action that proposes the unordered pair `{a,b}` as a match candidate. -/
def proposesPair (a b : Nat) : HsAction → Bool
  | .sendRequest _ _ (.ProposeMatchCandidate _ s p) => decide (normPair s p = normPair a b)
  | _ => false

theorem handle_propose_no_broker_of_contains (st : ExecState)
    (request_id peer_id my_order sender_order now local_port : Nat)
    (hcont : st.handshake_cache.contains my_order sender_order now = true) :
    (handle_propose_match_candidate st request_id peer_id my_order sender_order
      now local_port).trace.all (fun act => ! brokersOrAccepts act) = true := by
  by_cases hsv : senderOrderVerified st.book sender_order = true
  · by_cases hready : st.book.order_ready_for_handshake my_order = true
    · cases hnh : st.handshake_state_index.new_handshake st.book request_id
          sender_order my_order with
      | error e =>
          unfold handle_propose_match_candidate
          rw [if_neg (by simp [hsv]), if_neg (by simp [hready]), hnh]
          rfl
      | ok idx' =>
          unfold handle_propose_match_candidate
          rw [if_neg (by simp [hsv]), if_neg (by simp [hready]), hnh]
          dsimp only
          rw [if_pos hcont]
          rfl
    · unfold handle_propose_match_candidate
      rw [if_neg (by simp [hsv]), if_pos (by simp [hready])]
      rfl
  · unfold handle_propose_match_candidate
    rw [if_pos (by simp [hsv])]
    rfl

theorem perform_no_propose_of_completed (st : ExecState)
    (peer_order rid now a b : Nat) (mp : Option PeerId)
    (h : st.handshake_cache.lookupPair a b = some .completed) :
    (perform_handshake st peer_order mp rid now).trace.all
      (fun act => ! proposesPair a b act) = true := by
  unfold perform_handshake
  cases hchoose : choose_match_proposal st peer_order now with
  | none => rfl
  | some l =>
      have hne : normPair l peer_order ≠ normPair a b := by
        intro hEq
        unfold choose_match_proposal at hchoose
        have hp := List.find?_some hchoose
        have hcf : st.handshake_cache.contains l peer_order now = false := by
          simpa using hp
        have hlook : st.handshake_cache.lookupPair l peer_order = some .completed := by
          rw [lookupPair_congr st.handshake_cache hEq]
          exact h
        rw [contains_of_completed _ _ _ now hlook] at hcf
        cases hcf
      cases mp with
      | none => rfl
      | some peer =>
          dsimp only
          cases hnh : st.handshake_state_index.new_handshake st.book rid peer_order l with
          | ok idx' => simp [proposesPair, hne]
          | error e => simp [proposesPair, hne]

theorem perform_handshake_cache (st : ExecState) (p rid : Nat) (mp : Option PeerId)
    (now : Nat) :
    (perform_handshake st p mp rid now).state.handshake_cache = st.handshake_cache := by
  unfold perform_handshake
  cases hchoose : choose_match_proposal st p now with
  | none => rfl
  | some l =>
      dsimp only
      cases mp with
      | none => rfl
      | some peer =>
          dsimp only
          cases hnh : st.handshake_state_index.new_handshake st.book rid p l with
          | ok idx' => rfl
          | error e => rfl

theorem handle_propose_cache (st : ExecState)
    (request_id peer_id my_order sender_order now local_port : Nat) :
    (handle_propose_match_candidate st request_id peer_id my_order sender_order
      now local_port).state.handshake_cache = st.handshake_cache := by
  unfold handle_propose_match_candidate
  split
  · rfl
  · split
    · rfl
    · split
      · rfl
      · dsimp only
        split
        · rfl
        · rfl

theorem mark_invisible_capacity (c : HandshakeCache) (a b delta now : Nat) :
    (c.mark_invisible a b delta now).capacity = c.capacity := by
  unfold HandshakeCache.mark_invisible
  split
  · rfl
  · rfl

theorem mpc_net_setup_cache (st : ExecState) (rid now : Nat) (ok : Bool) (a b : Nat)
    (hcap : 0 < st.handshake_cache.capacity)
    (h : st.handshake_cache.lookupPair a b = some .completed) :
    (handle_mpc_net_setup st rid now ok).state.handshake_cache.lookupPair a b =
      some .completed ∨
    (handle_mpc_net_setup st rid now ok).state.handshake_cache.lookupPair a b = none := by
  unfold handle_mpc_net_setup
  cases hget : st.handshake_state_index.get_state rid with
  | none =>
      dsimp only
      exact Or.inl h
  | some r =>
      dsimp only
      have h1 := mark_invisible_from_completed st.handshake_cache r.local_order_id
        r.peer_order_id HANDSHAKE_INVISIBILITY_WINDOW_MS now a b h
      have hcap1 : 0 < (st.handshake_cache.mark_invisible r.local_order_id
          r.peer_order_id HANDSHAKE_INVISIBILITY_WINDOW_MS now).capacity := by
        rw [mark_invisible_capacity]
        exact hcap
      cases ok with
      | false => exact h1
      | true =>
          rw [if_pos rfl]
          have hget1 : (ExecState.mk
              (st.handshake_cache.mark_invisible r.local_order_id r.peer_order_id
                HANDSHAKE_INVISIBILITY_WINDOW_MS now)
              st.handshake_state_index st.book).handshake_state_index.get_state rid =
              some r := hget
          rw [record_completed_match_eq _ _ _ hget1]
          dsimp only
          rcases h1 with h1 | h1
          · exact mark_completed_from_completed _ _ _ _ _ hcap1 h1
          · exact mark_completed_from_none _ _ _ _ _ hcap1 h1

/-- Once `Completed`, a single executor step can only keep the entry
`Completed` or evict it from the bounded cache — never downgrade it. -/
theorem execStep_from_completed (st : ExecState) (s : ExecStep) (a b : Nat)
    (hcap : 0 < st.handshake_cache.capacity)
    (h : st.handshake_cache.lookupPair a b = some .completed) :
    (execStep st s).1.handshake_cache.lookupPair a b = some .completed ∨
    (execStep st s).1.handshake_cache.lookupPair a b = none := by
  cases s with
  | jobPerformHandshake p rid mp now =>
      left
      show (perform_handshake st p mp rid now).state.handshake_cache.lookupPair a b =
        some .completed
      rw [perform_handshake_cache]
      exact h
  | jobPropose request_id peer_id my_order sender_order now local_port =>
      left
      show (handle_propose_match_candidate st request_id peer_id my_order sender_order
        now local_port).state.handshake_cache.lookupPair a b = some .completed
      rw [handle_propose_cache]
      exact h
  | jobReject my_order sender_order reason =>
      cases reason with
      | Cached => exact mark_completed_from_completed _ _ _ _ _ hcap h
      | NoValidityProof => exact Or.inl h
      | LocalOrderNotReady => exact Or.inl h
  | jobExecuteMatch request_id peer_id port order1 order2 local_port has_channel =>
      exact mark_completed_from_completed _ _ _ _ _ hcap h
  | jobCacheEntry order1 order2 =>
      exact mark_completed_from_completed _ _ _ _ _ hcap h
  | jobPeerMatchInProgress order1 order2 now =>
      exact mark_invisible_from_completed _ _ _ _ _ _ _ h
  | jobMpcNetSetup request_id now ok =>
      exact mpc_net_setup_cache st request_id now ok a b hcap h
  | envBookOp op =>
      left
      unfold execStep
      dsimp only
      cases happ : applyBookOp st.book op with
      | ok b' => exact h
      | error e => exact h

/-- C1: (corrected) while the bounded LRU cache still holds a `Completed`
entry for the unordered pair `{a,b}`: every `handle_propose_match_candidate`
involving `{a,b}` emits no `BrokerMpcNet` directive and no `ExecuteMatch`
(any reply it sends is a `RejectMatchCandidate`, or it errors out on a
duplicate request id with no reply); no `perform_handshake` proposes `{a,b}`;
and no executor step can downgrade the entry — it can only stay `Completed`
or be evicted by the LRU bound.  The unconditional "no subsequent … ever"
claim fails because of eviction (see the counterexample). -/
theorem completedPairNeverRebrokered :
    ∀ (st : ExecState) (a b : Nat),
      0 < st.handshake_cache.capacity →
      st.handshake_cache.lookupPair a b = some .completed →
      (∀ request_id peer_id my_order sender_order now local_port : Nat,
        normPair my_order sender_order = normPair a b →
        (handle_propose_match_candidate st request_id peer_id my_order sender_order
          now local_port).trace.all (fun act => ! brokersOrAccepts act) = true) ∧
      (∀ (peer_order rid : Nat) (mp : Option PeerId) (now : Nat),
        (perform_handshake st peer_order mp rid now).trace.all
          (fun act => ! proposesPair a b act) = true) ∧
      (∀ s : ExecStep,
        (execStep st s).1.handshake_cache.lookupPair a b = some .completed ∨
        (execStep st s).1.handshake_cache.lookupPair a b = none) := by
  intro st a b hcap h
  refine ⟨?_, ?_, ?_⟩
  · intro request_id peer_id my_order sender_order now local_port hpair
    have hlook : st.handshake_cache.lookupPair my_order sender_order = some .completed := by
      rw [lookupPair_congr st.handshake_cache hpair]
      exact h
    exact handle_propose_no_broker_of_contains st request_id peer_id my_order
      sender_order now local_port (contains_of_completed _ _ _ _ hlook)
  · intro peer_order rid mp now
    exact perform_no_propose_of_completed st peer_order rid now a b mp h
  · intro s
    exact execStep_from_completed st s a b hcap h

/-- The concrete state of the C1 witness: a `Completed` entry for `{1,2}`. -/
def c1WitState : ExecState :=
  { handshake_cache := { capacity := HANDSHAKE_CACHE_SIZE
                         entries := [((1, 2), .completed)] }
    handshake_state_index := { records := [] }
    book := NetworkOrderBook.new }

/-- C1 witness: the safety theorem applied at a concrete state holding a
`Completed` entry. -/
theorem completedPairNeverRebrokered_witness :
    (handle_propose_match_candidate c1WitState 9 7 1 2 0 80).trace.all
      (fun act => ! brokersOrAccepts act) = true ∧
    ((execStep c1WitState (.jobCacheEntry 3 4)).1.handshake_cache.lookupPair 1 2 =
        some .completed ∨
      (execStep c1WitState (.jobCacheEntry 3 4)).1.handshake_cache.lookupPair 1 2 = none) := by
  have h := completedPairNeverRebrokered c1WitState 1 2 (by decide) (by decide)
  exact ⟨h.1 9 7 1 2 0 80 (by decide), h.2.2 (.jobCacheEntry 3 4)⟩

theorem runSteps_append :
    ∀ (l1 l2 : List ExecStep) (st : ExecState),
      runSteps st (l1 ++ l2) =
        ((runSteps (runSteps st l1).1 l2).1,
         (runSteps st l1).2 ++ (runSteps (runSteps st l1).1 l2).2) := by
  intro l1
  induction l1 with
  | nil =>
      intro l2 st
      show runSteps st l2 = ((runSteps st l2).1, (runSteps st l2).2)
      rfl
  | cons s l1 ih =>
      intro l2 st
      show ((runSteps (execStep st s).1 (l1 ++ l2)).1,
        (execStep st s).2 :: (runSteps (execStep st s).1 (l1 ++ l2)).2) = _
      rw [ih l2 (execStep st s).1]
      rfl

theorem runSteps_cacheEntries :
    ∀ (ps : List (Nat × Nat)) (st : ExecState),
      runSteps st (ps.map fun p => ExecStep.jobCacheEntry p.1 p.2) =
        ({ st with handshake_cache := markCompletedMany st.handshake_cache ps },
         ps.map fun p => [HsAction.cacheMarkCompleted p.1 p.2]) := by
  intro ps
  induction ps with
  | nil => intro st; rfl
  | cons p ps ih =>
      intro st
      show ((runSteps (execStep st (.jobCacheEntry p.1 p.2)).1
          (ps.map fun p => ExecStep.jobCacheEntry p.1 p.2)).1,
        (execStep st (.jobCacheEntry p.1 p.2)).2 :: _) = _
      rw [ih (execStep st (.jobCacheEntry p.1 p.2)).1]
      rfl

/-- The book setup of the C1 counterexample: a ready local order `1` and a
verified remote order `2`. -/
def c1Setup : List ExecStep :=
  [.envBookOp (.add (NetworkOrder.new 1 5 0 true)),
   .envBookOp (.updateProof 1 ⟨7⟩),
   .envBookOp (.attachWitness 1 55),
   .envBookOp (.add (NetworkOrder.new 2 6 0 false)),
   .envBookOp (.updateProof 2 ⟨8⟩)]

/-- 500 distinct fresh order pairs, enough to flush a cache of capacity
`HANDSHAKE_CACHE_SIZE = 500`. -/
def c1EvictPairs : List (Nat × Nat) :=
  (List.range 500).map (fun i => (10 + 2 * i, 11 + 2 * i))

/-- The C1 counterexample run: set up the book, mark `{1,2}` completed, then
let the cluster complete 500 other distinct pairs. -/
def c1Steps : List ExecStep :=
  c1Setup ++ (.jobCacheEntry 1 2 :: c1EvictPairs.map (fun p => .jobCacheEntry p.1 p.2))

/-- The state after the book setup of the C1 counterexample. -/
def c1SetupState : ExecState := (runSteps initExecState c1Setup).1

/-- The state just after `{1,2}` is marked completed. -/
def c1MarkedState : ExecState := (execStep c1SetupState (.jobCacheEntry 1 2)).1

/-- The state at the end of the C1 counterexample run. -/
def c1FinalState : ExecState := (runSteps initExecState c1Steps).1

theorem runSteps_append_fst (l1 l2 : List ExecStep) (st : ExecState) :
    (runSteps st (l1 ++ l2)).1 = (runSteps (runSteps st l1).1 l2).1 := by
  rw [runSteps_append]

theorem runSteps_cons_fst (st : ExecState) (s : ExecStep) (rest : List ExecStep) :
    (runSteps st (s :: rest)).1 = (runSteps (execStep st s).1 rest).1 := rfl

theorem c1FinalState_eq :
    c1FinalState =
      { c1MarkedState with
        handshake_cache := markCompletedMany c1MarkedState.handshake_cache c1EvictPairs } := by
  show (runSteps initExecState c1Steps).1 = _
  unfold c1Steps
  rw [runSteps_append_fst, runSteps_cons_fst, runSteps_cacheEntries]
  rfl

theorem c1MarkedCache :
    c1MarkedState.handshake_cache =
      { capacity := 500, entries := [((1, 2), .completed)] } := by
  decide

theorem c1EvictPairs_norm (p : Nat × Nat) (hp : p ∈ c1EvictPairs) :
    ∃ i, i < 500 ∧ normPair p.1 p.2 = (10 + 2 * i, 11 + 2 * i) := by
  unfold c1EvictPairs at hp
  obtain ⟨i, hi, rfl⟩ := List.mem_map.mp hp
  refine ⟨i, List.mem_range.mp hi, ?_⟩
  unfold normPair
  rw [Nat.min_eq_left (by omega), Nat.max_eq_right (by omega)]

theorem c1EvictPairs_nodup :
    (c1EvictPairs.map fun p => normPair p.1 p.2).Nodup := by
  unfold c1EvictPairs
  rw [List.map_map]
  have heq : ∀ i ∈ List.range 500,
      ((fun p : Nat × Nat => normPair p.1 p.2) ∘ fun i => (10 + 2 * i, 11 + 2 * i)) i =
        (10 + 2 * i, 11 + 2 * i) := by
    intro i _
    show normPair (10 + 2 * i) (11 + 2 * i) = _
    unfold normPair
    rw [Nat.min_eq_left (by omega), Nat.max_eq_right (by omega)]
  rw [List.map_congr_left heq]
  refine List.Nodup.map ?_ (List.nodup_range 500)
  intro i j hij
  have := congrArg Prod.fst hij
  simp only at this
  omega

theorem c1EvictPairs_disjoint :
    ∀ p ∈ c1EvictPairs,
      normPair p.1 p.2 ∉
        (({ capacity := 500, entries := [((1, 2), .completed)] } :
          HandshakeCache)).entries.map Prod.fst := by
  intro p hp hmem
  obtain ⟨i, hi, hnorm⟩ := c1EvictPairs_norm p hp
  simp only [List.map_cons, List.map_nil, List.mem_singleton] at hmem
  rw [hnorm] at hmem
  have := congrArg Prod.fst hmem
  simp only at this
  omega

theorem c1FinalCache :
    c1FinalState.handshake_cache =
      markCompletedMany
        ({ capacity := 500, entries := [((1, 2), .completed)] } : HandshakeCache)
        c1EvictPairs := by
  rw [c1FinalState_eq]
  show markCompletedMany c1MarkedState.handshake_cache c1EvictPairs = _
  rw [c1MarkedCache]

theorem c1_final_lookup : c1FinalState.handshake_cache.lookupPair 1 2 = none := by
  rw [c1FinalCache]
  have hform := markCompletedMany_entries c1EvictPairs
    { capacity := 500, entries := [((1, 2), .completed)] }
    c1EvictPairs_nodup c1EvictPairs_disjoint (by decide)
  unfold HandshakeCache.lookupPair
  rw [hform]
  have hlen : (c1EvictPairs.reverse.map fun p =>
      (normPair p.1 p.2, HandshakeCacheEntryState.completed)).length = 500 := by
    rw [List.length_map, List.length_reverse]
    unfold c1EvictPairs
    rw [List.length_map, List.length_range]
  rw [show (({ capacity := 500, entries := [((1, 2), .completed)] } :
      HandshakeCache)).capacity = 500 from rfl]
  rw [List.take_left' hlen]
  rw [List.find?_eq_none.mpr ?_]
  · rfl
  · intro e he
    obtain ⟨p, hp, rfl⟩ := List.mem_map.mp he
    have hp' := List.mem_reverse.mp hp
    obtain ⟨i, hi, hnorm⟩ := c1EvictPairs_norm p hp'
    simp only [decide_eq_true_iff]
    intro hc
    rw [hnorm] at hc
    have h1 := congrArg Prod.fst hc
    have h2 : normPair 1 2 = (1, 2) := by decide
    rw [h2] at h1
    simp only at h1
    omega

theorem c1_final_book : c1FinalState.book = c1SetupState.book := by
  rw [c1FinalState_eq]
  rfl

theorem c1_final_index :
    c1FinalState.handshake_state_index = c1SetupState.handshake_state_index := by
  rw [c1FinalState_eq]
  rfl

theorem contains_false_of_lookup_none (c : HandshakeCache) (a b now : Nat)
    (h : c.lookupPair a b = none) : c.contains a b now = false := by
  unfold HandshakeCache.contains
  rw [h]

theorem handle_propose_success_trace (st : ExecState)
    (rid peer mo so now port : Nat)
    (hsv : senderOrderVerified st.book so = true)
    (hready : st.book.order_ready_for_handshake mo = true)
    (hfresh : st.handshake_state_index.get_state rid = none)
    (hpo : st.book.contains_order so = true)
    (hlo : st.book.contains_order mo = true)
    (hcont : st.handshake_cache.contains mo so now = false) :
    (handle_propose_match_candidate st rid peer mo so now port).trace =
      [.indexInsert rid so mo,
       .sendBrokerMpcNet rid peer 0 port .Listener,
       .sendPubsub (.MatchInProgress mo so),
       .sendResponse rid (.ExecuteMatch local_peer_id port false mo so)] := by
  unfold handle_propose_match_candidate
  rw [if_neg (by simp [hsv]), if_neg (by simp [hready]),
    new_handshake_ok _ _ _ _ _ hfresh hpo hlo]
  dsimp only
  rw [if_neg (by simp [hcont])]

theorem c1_final_propose :
    (handle_propose_match_candidate c1FinalState 99 7 1 2 600 8080).trace =
      [.indexInsert 99 2 1,
       .sendBrokerMpcNet 99 7 0 8080 .Listener,
       .sendPubsub (.MatchInProgress 1 2),
       .sendResponse 99 (.ExecuteMatch local_peer_id 8080 false 1 2)] := by
  have hsv : senderOrderVerified c1FinalState.book 2 = true := by
    rw [c1_final_book]; decide
  have hready : c1FinalState.book.order_ready_for_handshake 1 = true := by
    rw [c1_final_book]; decide
  have hfresh : c1FinalState.handshake_state_index.get_state 99 = none := by
    rw [c1_final_index]; decide
  have hpo : c1FinalState.book.contains_order 2 = true := by
    rw [c1_final_book]; decide
  have hlo : c1FinalState.book.contains_order 1 = true := by
    rw [c1_final_book]; decide
  exact handle_propose_success_trace c1FinalState 99 7 1 2 600 8080
    hsv hready hfresh hpo hlo
    (contains_false_of_lookup_none _ 1 2 600 c1_final_lookup)

/-- C1 counterexample: in a run of the executor from its initial state, the
cache marks `{1,2}` `Completed` at step 5; after 500 other pairs are
completed the bounded LRU cache (capacity `HANDSHAKE_CACHE_SIZE = 500`) has
evicted the `{1,2}` entry, and a *subsequent* `handle_propose_match_candidate`
involving `{1,2}` passes the cache check and reaches the `BrokerMpcNet` /
`ExecuteMatch` step instead of rejecting. -/
theorem c1_counterexample :
    ((runSteps initExecState c1Steps).2.get? 5 = some [.cacheMarkCompleted 1 2]) ∧
    c1FinalState.handshake_cache.lookupPair 1 2 = none ∧
    (handle_propose_match_candidate c1FinalState 99 7 1 2 600 8080).trace =
      [.indexInsert 99 2 1,
       .sendBrokerMpcNet 99 7 0 8080 .Listener,
       .sendPubsub (.MatchInProgress 1 2),
       .sendResponse 99 (.ExecuteMatch local_peer_id 8080 false 1 2)] := by
  refine ⟨by decide, c1_final_lookup, c1_final_propose⟩

end HandshakeClaims

end Renegade
